import Mathlib

/-!
Verification development for the Podcast-RSS-API repository
(src/routes/api/podcast.js).  The JavaScript source is shallowly embedded:
pure string manipulation becomes executable Lean functions over `List Char`
and `String`, the stateful fetch loop becomes explicit recursion over an
environment record, and JavaScript values flowing out of the XML parser are
modelled by an inductive `JVal` type.  External npm/node modules
(sanitize-html, he, zlib, Date parsing, DNS) are parameters of the
definitions that use them; node builtins with a fixed public specification
(net.isIP, crypto sha256, String.prototype methods, parseInt) are
implemented directly.
-/

namespace Podcast

/-! ## Character and string utilities (models of JS string primitives) -/

/-- Decimal digit test, as used by the IP parsers. -/
def isDigitCh (c : Char) : Bool := '0' ≤ c && c ≤ '9'

/-- Value of a decimal digit list, most significant first. -/
def digitsToNat (l : List Char) : Nat :=
  l.foldl (fun acc c => acc * 10 + (c.toNat - '0'.toNat)) 0

/-- Hex digit value (both cases), `none` for non-hex characters. -/
def hexVal (c : Char) : Option Nat :=
  let n := c.toNat
  if 48 ≤ n ∧ n ≤ 57 then some (n - 48)
  else if 97 ≤ n ∧ n ≤ 102 then some (n - 87)
  else if 65 ≤ n ∧ n ≤ 70 then some (n - 55)
  else none

/-- Value of a hex digit list, most significant first; `none` if any
character is not a hex digit. -/
def hexToNat : List Char → Option Nat → Option Nat
  | [], acc => acc
  | c :: rest, acc =>
    match acc, hexVal c with
    | some a, some v => hexToNat rest (some (a * 16 + v))
    | _, _ => none

/-- JS whitespace test used by `String.prototype.trim` / `parseInt`
(ASCII subset, sufficient for the query/feed strings modelled here). -/
def isJsSpace (c : Char) : Bool :=
  c == ' ' || c == '\t' || c == '\n' || c == '\r' || c == '\x0b' || c == '\x0c'

/-- Model of `Number.parseInt(s, 10)`: skip leading whitespace, optional
sign, then a maximal run of decimal digits; `none` models `NaN` (no digits).
Trailing junk is ignored, exactly as in JS. -/
def parseIntJS (s : String) : Option Int :=
  let l := s.data.dropWhile isJsSpace
  let signRest : Int × List Char :=
    match l with
    | c :: t => if c = '-' then (-1, t) else if c = '+' then ((1 : Int), t) else ((1 : Int), l)
    | [] => ((1 : Int), [])
  let digits := signRest.2.takeWhile isDigitCh
  if digits.isEmpty then none
  else some (signRest.1 * (digitsToNat digits : Int))

/-- Model of `String.prototype.toLowerCase` (ASCII fold, enough for
hostnames and IP literals). -/
def jsToLower (s : String) : String := ⟨s.data.map Char.toLower⟩

/-- Model of `String.prototype.startsWith`. -/
def jsStartsWith (s pre : String) : Bool := pre.data.isPrefixOf s.data

/-- Model of `String.prototype.endsWith`. -/
def jsEndsWith (s suf : String) : Bool := suf.data.isSuffixOf s.data

/-- Drop the first `n` characters of a string. -/
def jsDrop (s : String) (n : Nat) : String := ⟨s.data.drop n⟩

/-- Worker for `jsSplit`: splits `l` at every occurrence of the nonempty
separator `sep`, scanning left to right.  `fuel` only bounds the recursion
(structurally), so that the function reduces in the kernel; any
`fuel > l.length` gives the JS semantics. -/
def jsSplitGo (sep : List Char) (fuel : Nat) (l : List Char) (acc : List Char) :
    List (List Char) :=
  match fuel with
  | 0 => [acc.reverse]
  | fuel + 1 =>
    match l with
    | [] => [acc.reverse]
    | c :: t =>
      if sep.isPrefixOf l then
        acc.reverse :: jsSplitGo sep fuel (l.drop sep.length) []
      else
        jsSplitGo sep fuel t (c :: acc)

/-- Model of `String.prototype.split(sep)` for a nonempty string separator
(the empty-separator case, unused here, splits into characters). -/
def jsSplit (s sep : String) : List String :=
  if sep = "" then s.data.map (fun c => (⟨[c]⟩ : String))
  else (jsSplitGo sep.data (s.data.length + 1) s.data []).map (fun l => (⟨l⟩ : String))

/-! ## Model of node's `net.isIP`

`net.isIP(s)` returns 4 for a valid dotted-quad IPv4 literal, 6 for a valid
RFC-4291 IPv6 literal, 0 otherwise.  IPv4 requires four decimal octets
0–255 with no leading zeros; IPv6 allows one `::` compression, groups of
1–4 hex digits, and an embedded dotted quad in the last position. -/

/-- Parse one IPv4 octet: nonempty, all digits, no leading zero
(except exactly "0"), value at most 255. -/
def octetVal (p : String) : Option Nat :=
  let l := p.data
  if l.isEmpty then none
  else if !(l.all isDigitCh) then none
  else if l.length > 1 && l.headD '0' == '0' then none
  else if digitsToNat l ≤ 255 then some (digitsToNat l) else none

/-- Parse a dotted-quad IPv4 literal to its four octets. -/
def ipv4Octets (s : String) : Option (List Nat) :=
  match jsSplit s "." with
  | [p0, p1, p2, p3] =>
    match octetVal p0, octetVal p1, octetVal p2, octetVal p3 with
    | some a, some b, some c, some d => some [a, b, c, d]
    | _, _, _, _ => none
  | _ => none

/-- Validity of an IPv4 literal (the `net.isIP(s) === 4` test). -/
def isIPv4 (s : String) : Bool := (ipv4Octets s).isSome

/-- Numeric value of a valid IPv4 literal. -/
def ipv4Value (s : String) : Option Nat :=
  match ipv4Octets s with
  | some [a, b, c, d] => some (((a * 256 + b) * 256 + c) * 256 + d)
  | _ => none

/-- Parse a 1–4 hex digit IPv6 group. -/
def parseHexGroup (p : String) : Option Nat :=
  let l := p.data
  if l.isEmpty || l.length > 4 then none
  else hexToNat l (some 0)

/-- Parse a run of colon-separated IPv6 groups where the last entry may be
an embedded dotted quad (contributing two groups). -/
def parseGroupSeq (parts : List String) : Option (List Nat) :=
  match parts with
  | [] => some []
  | [p] =>
    if p.data.contains '.' then
      match ipv4Octets p with
      | some [a, b, c, d] => some [a * 256 + b, c * 256 + d]
      | _ => none
    else (parseHexGroup p).map ([·])
  | p :: rest =>
    match parseHexGroup p, parseGroupSeq rest with
    | some g, some gs => some (g :: gs)
    | _, _ => none

/-- Parse an IPv6 literal into its eight 16-bit groups. -/
def ipv6Groups (s : String) : Option (List Nat) :=
  let pieces := jsSplit s "::"
  match pieces with
  | [whole] =>
    -- no "::" compression: exactly eight groups
    match parseGroupSeq (jsSplit whole ":") with
    | some gs => if gs.length = 8 then some gs else none
    | none => none
  | [left, right] =>
    let leftParts := if left = "" then [] else jsSplit left ":"
    let rightParts := if right = "" then [] else jsSplit right ":"
    match parseGroupSeq leftParts, parseGroupSeq rightParts with
    | some lg, some rg =>
      if lg.length + rg.length ≤ 7 then
        some (lg ++ List.replicate (8 - lg.length - rg.length) 0 ++ rg)
      else none
    | _, _ => none
  | _ => none

/-- Validity of an IPv6 literal (the `net.isIP(s) === 6` test). -/
def isIPv6 (s : String) : Bool := (ipv6Groups s).isSome

/-- Model of node's `net.isIP`. -/
def isIP (s : String) : Nat :=
  if isIPv4 s then 4 else if isIPv6 s then 6 else 0

/-! ## The SSRF guard's private/reserved classifier (`isPrivateIp`) -/

/-- Equality test between a JS number that may be `NaN`/`undefined`
(modelled `Option Int`) and an integer literal; `NaN`/`undefined`
comparisons are false in JS. -/
def jsNumEq (x : Option Int) (n : Int) : Bool :=
  match x with
  | some v => v == n
  | none => false

/-- `lo <= x && x <= hi` on a possibly-`NaN`/`undefined` JS number. -/
def jsNumBetween (x : Option Int) (lo hi : Int) : Bool :=
  match x with
  | some v => lo ≤ v && v ≤ hi
  | none => false

/-- The IPv4 arm of `isPrivateIp`: `const [a, b] =
ip.split(".").map((part) => Number.parseInt(part, 10))` followed by the
chain of octet tests from podcast.js lines 444–452.  A missing part
destructures to `undefined`, whose numeric comparisons are all false. -/
def isPrivateIpV4 (ip : String) : Bool :=
  let parts := (jsSplit ip ".").map parseIntJS
  let a := (parts.get? 0).getD none
  let b := (parts.get? 1).getD none
  if jsNumEq a 10 then true
  else if jsNumEq a 127 then true
  else if jsNumEq a 0 then true
  else if jsNumEq a 169 && jsNumEq b 254 then true
  else if jsNumEq a 172 && jsNumBetween b 16 31 then true
  else if jsNumEq a 192 && jsNumEq b 168 then true
  else if jsNumEq a 100 && jsNumBetween b 64 127 then true
  else false

/-- Embedding of `isPrivateIp` (podcast.js lines 442–467).  The IPv6 arm
works on the lower-cased textual form: exact "::1", prefix "fe80:",
prefix "fc" or "fd", or an IPv4-mapped "::ffff:" prefix whose remainder
(`normalized.replace("::ffff:", "")`, i.e. drop 7 characters since the
prefix test guarantees the first occurrence is at the start) is a valid
IPv4 literal, classified recursively. -/
def isPrivateIp (ip : String) : Bool :=
  if isIP ip == 4 then isPrivateIpV4 ip
  else if isIP ip == 6 then
    let normalized := jsToLower ip
    if normalized == "::1" then true
    else if jsStartsWith normalized "fe80:" then true
    else if jsStartsWith normalized "fc" || jsStartsWith normalized "fd" then true
    else if jsStartsWith normalized "::ffff:" then
      let mapped := jsDrop normalized 7
      if isIP mapped == 4 then isPrivateIpV4 mapped else false
    else false
  else false

/-! ## Specification-side private/reserved range predicates (for C1)

`inV4PrivateRanges` is the spec's list of IPv4 CIDR blocks, expressed as
intervals of the 32-bit numeric address value. -/

/-- Membership of a numeric IPv4 address in the spec's private/reserved
CIDR blocks: 0.0.0.0/8, 10.0.0.0/8, 127.0.0.0/8, 169.254.0.0/16,
172.16.0.0/12, 192.168.0.0/16, 100.64.0.0/10. -/
def inV4PrivateRanges (v : Nat) : Bool :=
  (v < 16777216) ||
  (10 * 16777216 ≤ v && v < 11 * 16777216) ||
  (127 * 16777216 ≤ v && v < 128 * 16777216) ||
  (169 * 16777216 + 254 * 65536 ≤ v && v < 169 * 16777216 + 255 * 65536) ||
  (172 * 16777216 + 16 * 65536 ≤ v && v < 172 * 16777216 + 32 * 65536) ||
  (192 * 16777216 + 168 * 65536 ≤ v && v < 192 * 16777216 + 169 * 65536) ||
  (100 * 16777216 + 64 * 65536 ≤ v && v < 100 * 16777216 + 128 * 65536)

/-- CIDR check of an IPv4 literal by its numeric value. -/
def v4RangeCheck (m : String) : Bool :=
  match ipv4Value m with
  | some v => inV4PrivateRanges v
  | none => false

/-- Value-level private/reserved classification of the eight 16-bit groups
of an IPv6 address, following the spec sentence: `::1`, `fe80::/10`,
`fc00::/7` (which contains `fd00::/8`), and IPv4-mapped addresses
(`::ffff:a.b.c.d`) classified by their embedded IPv4 value. -/
def specPrivateV6Groups (gs : List Nat) : Bool :=
  (gs == [0, 0, 0, 0, 0, 0, 0, 1]) ||
  (match gs with
   | g0 :: _ => (0xfe80 ≤ g0 && g0 ≤ 0xfebf) || (0xfc00 ≤ g0 && g0 ≤ 0xfdff)
   | [] => false) ||
  (match gs with
   | [g0, g1, g2, g3, g4, g5, hi, lo] =>
     g0 == 0 && g1 == 0 && g2 == 0 && g3 == 0 && g4 == 0 && g5 == 0xffff &&
       inV4PrivateRanges (hi * 65536 + lo)
   | _ => false)

/-- The classification claimed by the spec (claim C1), read literally:
IPv4 literals are classified by CIDR-range membership of their numeric
value, IPv6 literals by value-level membership in `::1`, `fe80::/10`,
`fc00::/7`, or the IPv4-mapped block. -/
def specPrivateIpClaim (ip : String) : Bool :=
  if isIPv4 ip then v4RangeCheck ip
  else if isIPv6 ip then
    match ipv6Groups ip with
    | some gs => specPrivateV6Groups gs
    | none => false
  else false

/-- The amended classification: the IPv4 side is genuine CIDR-range
membership of the numeric value, but the IPv6 side is textual, on the
lower-cased literal: exactly "::1", or prefix "fe80:", or prefix "fc" or
"fd", or prefix "::ffff:" with the remainder a valid IPv4 literal in the
IPv4 ranges. -/
def specPrivateIpAmended (ip : String) : Bool :=
  if isIPv4 ip then v4RangeCheck ip
  else if isIPv6 ip then
    let n := jsToLower ip
    (n == "::1") || jsStartsWith n "fe80:" || jsStartsWith n "fc" || jsStartsWith n "fd" ||
      (jsStartsWith n "::ffff:" && v4RangeCheck (jsDrop n 7))
  else false

/-! ## The SSRF guard's URL validation and DNS selection -/

/-- Failure classification of the guard/fetch pipeline.  Constructors map
to the thrown error messages of podcast.js: `invalidUrl` 无效的 RSS 地址,
`unsupportedScheme` 仅支持 http/https RSS 地址, `forbiddenLocal`
禁止访问本地地址, `forbiddenPrivate` 禁止访问内网地址, `dnsFailure`
DNS 解析失败, `tooManyRedirects` RSS 地址重定向次数过多, `httpStatus`
获取 RSS 失败 with the status code, `tooLarge` RSS 内容过大,
`decodeFailure` 解压 RSS 内容失败. -/
inductive FetchErr
  | invalidUrl
  | unsupportedScheme
  | forbiddenLocal
  | forbiddenPrivate
  | dnsFailure
  | tooManyRedirects
  | httpStatus (code : Nat)
  | tooLarge
  | decodeFailure
deriving DecidableEq, Repr

deriving instance DecidableEq for Except

/-- The components of a parsed URL that the guard and fetcher inspect:
`protocol` and `hostname` as produced by `new URL`, plus the full `href`
used to key the network environment. -/
structure UrlParts where
  protocol : String
  hostname : String
  href : String
deriving DecidableEq, Repr

/-- Embedding of `ensurePublicUrl` (podcast.js lines 469–489), applied to
the parts `new URL` produced.  A falsy (empty) hostname rejects, only
http/https schemes pass, `localhost` and `*.localhost` are rejected, and a
literal-IP hostname is classified immediately by `isPrivateIp`. -/
def ensurePublicUrl (u : UrlParts) : Except FetchErr Unit :=
  if u.hostname = "" then .error .invalidUrl
  else if !(["http:", "https:"].contains u.protocol) then .error .unsupportedScheme
  else
    let hostname := jsToLower u.hostname
    if hostname == "localhost" || jsEndsWith hostname ".localhost" then .error .forbiddenLocal
    else if isIP hostname ≠ 0 then
      if isPrivateIp hostname then .error .forbiddenPrivate else .ok ()
    else .ok ()

/-- One record of a `dns.lookup(hostname, { all: true, verbatim: true })`
result. -/
structure LookupRecord where
  address : String
  family : Nat
deriving DecidableEq, Repr

/-- Embedding of `resolvePublicAddress` (podcast.js lines 491–501) as a
function of the address list the DNS lookup returned: an empty list is a
DNS failure, otherwise the first record whose address is not
private/reserved is selected, and if none qualifies the lookup is
forbidden. -/
def resolvePublicAddress (addresses : List LookupRecord) : Except FetchErr LookupRecord :=
  if addresses.isEmpty then .error .dnsFailure
  else
    match addresses.find? (fun record => !isPrivateIp record.address) with
    | some record => .ok record
    | none => .error .forbiddenPrivate

/-! ## Supporting lemmas for the IP classifier -/

lemma isJsSpace_of_digit (c : Char) (h : isDigitCh c = true) : isJsSpace c = false := by
  simp only [isJsSpace, Bool.or_eq_false_iff, beq_eq_false_iff_ne, ne_eq]
  refine ⟨⟨⟨⟨⟨?_, ?_⟩, ?_⟩, ?_⟩, ?_⟩, ?_⟩ <;> rintro rfl <;> exact absurd h (by decide)

lemma takeWhile_all {p : Char → Bool} (l : List Char) (h : l.all p = true) :
    l.takeWhile p = l := by
  induction l with
  | nil => rfl
  | cons c t ih =>
    simp only [List.all_cons, Bool.and_eq_true] at h
    simp [List.takeWhile_cons, h.1, ih h.2]

lemma octetVal_some (p : String) (v : Nat) (h : octetVal p = some v) :
    parseIntJS p = some (v : Int) ∧ v ≤ 255 := by
  simp only [octetVal] at h
  split_ifs at h with h1 h2 h3 h4
  have hv : digitsToNat p.data = v := by injection h
  subst hv
  have h2' : p.data.all isDigitCh = true := by
    revert h2; cases p.data.all isDigitCh <;> simp
  refine ⟨?_, h4⟩
  obtain ⟨c, t, hct⟩ : ∃ c t, p.data = c :: t := by
    cases hd : p.data with
    | nil => rw [hd] at h1; exact absurd rfl h1
    | cons c t => exact ⟨c, t, rfl⟩
  have hdig : isDigitCh c = true := by
    have h2c := h2'; rw [hct] at h2c
    simp only [List.all_cons, Bool.and_eq_true] at h2c
    exact h2c.1
  have hspace : isJsSpace c = false := isJsSpace_of_digit c hdig
  have hcm : ¬(c = '-') := by rintro rfl; exact absurd hdig (by decide)
  have hcp : ¬(c = '+') := by rintro rfl; exact absurd hdig (by decide)
  have htw : (c :: t).takeWhile isDigitCh = c :: t := by
    apply takeWhile_all; rw [← hct]; exact h2'
  simp only [parseIntJS]
  rw [hct]
  simp [List.dropWhile_cons, hspace, hcm, hcp, htw, hdig]

lemma if_bool_or (b y : Bool) : (if b = true then true else y) = (b || y) := by
  cases b <;> simp

lemma if_bool_and (b x : Bool) : (if b = true then x else false) = (b && x) := by
  cases b <;> simp

lemma isPrivateIpV4_eq (ip : String) (a b c d : Nat)
    (h : ipv4Octets ip = some [a, b, c, d]) :
    isPrivateIpV4 ip = inV4PrivateRanges (((a * 256 + b) * 256 + c) * 256 + d) := by
  simp only [ipv4Octets] at h
  split at h
  case h_2 => exact absurd h (by simp)
  case h_1 p0 p1 p2 p3 heq =>
    split at h
    case h_2 => exact absurd h (by simp)
    case h_1 a' b' c' d' ha hb hc hd =>
      have hl : a' = a ∧ b' = b ∧ c' = c ∧ d' = d := by
        injection h with h'
        simpa using h'
      rw [← hl.1, ← hl.2.1, ← hl.2.2.1, ← hl.2.2.2]
      obtain ⟨hpa, hba⟩ := octetVal_some p0 a' ha
      obtain ⟨hpb, hbb⟩ := octetVal_some p1 b' hb
      obtain ⟨hpc, hbc⟩ := octetVal_some p2 c' hc
      obtain ⟨hpd, hbd⟩ := octetVal_some p3 d' hd
      simp only [isPrivateIpV4, heq, List.map_cons, List.map_nil, hpa, hpb, hpc, hpd,
        List.get?, Option.getD_some, jsNumEq, jsNumBetween]
      simp only [if_bool_or]
      apply Bool.eq_iff_iff.mpr
      simp only [inV4PrivateRanges, Bool.or_eq_true, Bool.and_eq_true, beq_iff_eq,
        decide_eq_true_eq, Bool.false_eq_true, or_false]
      omega

lemma ipv4Octets_shape (m : String) (l : List Nat) (h : ipv4Octets m = some l) :
    ∃ a b c d, l = [a, b, c, d] := by
  simp only [ipv4Octets] at h
  split at h
  case h_2 => exact absurd h (by simp)
  case h_1 p0 p1 p2 p3 heq =>
    split at h
    case h_2 => exact absurd h (by simp)
    case h_1 a b c d ha hb hc hd => exact ⟨a, b, c, d, (Option.some.inj h).symm⟩

lemma ipv4Value_of_octets (m : String) (a b c d : Nat) (h : ipv4Octets m = some [a, b, c, d]) :
    ipv4Value m = some (((a * 256 + b) * 256 + c) * 256 + d) := by
  simp [ipv4Value, h]

lemma ipv4Octets_none (m : String) (h : isIPv4 m = false) : ipv4Octets m = none := by
  cases ho : ipv4Octets m with
  | none => rfl
  | some l => rw [isIPv4, ho] at h; exact absurd h (by simp)

lemma v4RangeCheck_false (m : String) (h : isIPv4 m = false) : v4RangeCheck m = false := by
  simp [v4RangeCheck, ipv4Value, ipv4Octets_none m h]

lemma isPrivateIpV4_eq_rangeCheck (m : String) (h : isIPv4 m = true) :
    isPrivateIpV4 m = v4RangeCheck m := by
  obtain ⟨l, hl⟩ := Option.isSome_iff_exists.mp h
  obtain ⟨a, b, c, d, rfl⟩ := ipv4Octets_shape m l hl
  rw [isPrivateIpV4_eq m a b c d hl]
  simp [v4RangeCheck, ipv4Value_of_octets m a b c d hl]

lemma isIP_beq_four (s : String) : (isIP s == 4) = isIPv4 s := by
  unfold isIP
  by_cases h : isIPv4 s
  · simp [h]
  · simp only [Bool.not_eq_true] at h
    rw [h]
    split_ifs <;> simp_all

lemma isIP_beq_six (s : String) (h : isIPv4 s = false) : (isIP s == 6) = isIPv6 s := by
  unfold isIP
  rw [h]
  simp only [Bool.false_eq_true, if_false]
  by_cases h6 : isIPv6 s
  · simp [h6]
  · simp only [Bool.not_eq_true] at h6
    rw [h6]
    simp

lemma v4Branch_eq (m : String) :
    ((isIP m == 4) && isPrivateIpV4 m) = v4RangeCheck m := by
  by_cases h : isIPv4 m
  · rw [isIP_beq_four, h, Bool.true_and, isPrivateIpV4_eq_rangeCheck m h]
  · simp only [Bool.not_eq_true] at h
    rw [isIP_beq_four, h, Bool.false_and, v4RangeCheck_false m h]

lemma isPrivateIp_eq_specAmended (ip : String) : isPrivateIp ip = specPrivateIpAmended ip := by
  unfold isPrivateIp specPrivateIpAmended
  by_cases h4 : isIPv4 ip
  · rw [isIP_beq_four, h4]
    simp only [if_true]
    exact isPrivateIpV4_eq_rangeCheck ip h4
  · simp only [Bool.not_eq_true] at h4
    rw [isIP_beq_four, h4]
    simp only [Bool.false_eq_true, if_false]
    by_cases h6 : isIPv6 ip
    · rw [isIP_beq_six ip h4, h6]
      simp only [if_true]
      rw [if_bool_and (jsStartsWith (jsToLower ip) "::ffff:")
        (if isIP (jsDrop (jsToLower ip) 7) == 4 then isPrivateIpV4 (jsDrop (jsToLower ip) 7) else false)]
      rw [show (if isIP (jsDrop (jsToLower ip) 7) == 4 then isPrivateIpV4 (jsDrop (jsToLower ip) 7) else false)
            = v4RangeCheck (jsDrop (jsToLower ip) 7) from by
          rw [if_bool_and, v4Branch_eq]]
      simp only [if_bool_or]
      cases jsToLower ip == "::1" <;>
        cases jsStartsWith (jsToLower ip) "fe80:" <;>
        cases jsStartsWith (jsToLower ip) "fc" <;>
        cases jsStartsWith (jsToLower ip) "fd" <;> simp
    · simp only [Bool.not_eq_true] at h6
      rw [isIP_beq_six ip h4, h6]
      rfl


/-! ## Claim C1: the private/reserved classification -/

/-- C1, counterexample: the classifier is not exactly CIDR-range
membership.  The literal "fc::1" is a valid IPv6 address whose first group
is 0x00fc, so it lies in none of the spec ranges (`fc00::/7` starts at
first group 0xfc00), yet `isPrivateIp` classifies it private because its
text starts with "fc". -/
theorem isPrivateIp_cidr_claim_counterexample :
    ¬ (isPrivateIp "fc::1" = specPrivateIpClaim "fc::1") := by decide

/-- C1 (amended): `isPrivateIp` returns true exactly when the address is a
valid IPv4 literal whose value lies in 0.0.0.0/8, 10.0.0.0/8, 127.0.0.0/8,
169.254.0.0/16, 172.16.0.0/12, 192.168.0.0/16 or 100.64.0.0/10, or a valid
IPv6 literal whose lower-cased text is exactly "::1", or starts with
"fe80:", "fc" or "fd", or starts with "::ffff:" followed by an IPv4
literal in those ranges; and the URL guard rejects
http://127.0.0.1/feed, http://10.0.0.5/feed and
http://169.254.169.254/feed while accepting the literal public IP
93.184.216.34. -/
theorem isPrivateIp_amended_characterization :
    (∀ ip : String, isPrivateIp ip = specPrivateIpAmended ip) ∧
    ensurePublicUrl ⟨"http:", "127.0.0.1", "http://127.0.0.1/feed"⟩ =
      .error .forbiddenPrivate ∧
    ensurePublicUrl ⟨"http:", "10.0.0.5", "http://10.0.0.5/feed"⟩ =
      .error .forbiddenPrivate ∧
    ensurePublicUrl ⟨"http:", "169.254.169.254", "http://169.254.169.254/feed"⟩ =
      .error .forbiddenPrivate ∧
    ensurePublicUrl ⟨"http:", "93.184.216.34", "http://93.184.216.34/feed"⟩ = .ok () :=
  ⟨isPrivateIp_eq_specAmended, by decide, by decide, by decide, by decide⟩

/-! ## Claim C2: DNS address selection -/

lemma findAtFirstIndex {α : Type} (p : α → Bool) (l : List α) (i : Fin l.length)
    (hi : p (l.get i) = true)
    (hj : ∀ j : Fin l.length, (j : Nat) < (i : Nat) → p (l.get j) = false) :
    l.find? p = some (l.get i) := by
  induction l with
  | nil => exact absurd i.2 (by simp)
  | cons a t ih =>
    cases i using Fin.cases with
    | zero =>
      simp only [List.get] at hi
      simp [List.find?_cons, hi]
    | succ k =>
      have ha : p a = false := by
        have := hj ⟨0, by simp⟩ (by simp)
        simp only [List.get] at this
        exact this
      rw [List.find?_cons, ha]
      have hi' : p (t.get k) = true := by simpa using hi
      have hj' : ∀ j : Fin t.length, (j : Nat) < (k : Nat) → p (t.get j) = false := by
        intro j hjk
        have hs := hj ⟨(j : Nat) + 1, by simp [j.2]⟩ (by simp [hjk])
        simpa using hs
      simpa using ih k hi' hj'

/-- C2: for every hostname whose DNS lookup yields an address list,
`resolvePublicAddress` returns the first address in the list that is not
private/reserved; it fails with the forbidden-address error when every
returned address is private/reserved, and with the DNS-failure error when
the lookup yields no addresses. -/
theorem resolvePublicAddress_spec (addresses : List LookupRecord) :
    (addresses = [] → resolvePublicAddress addresses = .error .dnsFailure) ∧
    (∀ i : Fin addresses.length,
      isPrivateIp (addresses.get i).address = false →
      (∀ j : Fin addresses.length, (j : Nat) < (i : Nat) →
        isPrivateIp (addresses.get j).address = true) →
      resolvePublicAddress addresses = .ok (addresses.get i)) ∧
    (addresses ≠ [] → (∀ r ∈ addresses, isPrivateIp r.address = true) →
      resolvePublicAddress addresses = .error .forbiddenPrivate) := by
  refine ⟨?_, ?_, ?_⟩
  · rintro rfl
    rfl
  · intro i hi hj
    have hfind : addresses.find? (fun record => !isPrivateIp record.address)
        = some (addresses.get i) := by
      apply findAtFirstIndex
      · show (!isPrivateIp (addresses.get i).address) = true
        rw [hi]
        rfl
      · intro j hji
        show (!isPrivateIp (addresses.get j).address) = false
        rw [hj j hji]
        rfl
    have hne : addresses.isEmpty = false := by
      cases addresses with
      | nil => exact absurd i.2 (by simp)
      | cons a t => rfl
    simp [resolvePublicAddress, hne, hfind]
  · intro hne hall
    have hfind : addresses.find? (fun record => !isPrivateIp record.address) = none := by
      rw [List.find?_eq_none]
      intro x hx
      simp [hall x hx]
    have hne' : addresses.isEmpty = false := by
      cases addresses with
      | nil => exact absurd rfl hne
      | cons a t => rfl
    simp [resolvePublicAddress, hne', hfind]

/-- Witness for C2 at the concrete lookup result
`[10.0.0.5, 93.184.216.34]`: the private first record is skipped and the
second record is selected. -/
theorem resolvePublicAddress_spec_witness :
    isPrivateIp "10.0.0.5" = true ∧ isPrivateIp "93.184.216.34" = false ∧
    resolvePublicAddress
        [{ address := "10.0.0.5", family := 4 }, { address := "93.184.216.34", family := 4 }] =
      .ok { address := "93.184.216.34", family := 4 } := by
  refine ⟨by decide, by decide, ?_⟩
  exact (resolvePublicAddress_spec
      [{ address := "10.0.0.5", family := 4 }, { address := "93.184.216.34", family := 4 }]).2.1
    ⟨1, by decide⟩ (by decide)
    (fun j hj => by
      fin_cases j
      · decide
      · exact absurd hj (by decide))


/-! ## The safe fetcher (`fetchRss`)

The HTTP layer is modelled by an environment: `parse` models `new URL`
(`none` = constructor throw), `resolveRel` models `new URL(loc, base).href`
for a relative location, `dns` models `dns.lookup(hostname, {all: true})`,
`net` gives the HTTP response for a URL, and `gunzip`/`inflate`/`brotli`
model the zlib decoders (`none` = decode error).  Bytes are `Nat`s. -/

/-- fetch limits from podcast.js lines 15 and 21. -/
def MAX_REDIRECTS : Nat := 3

/-- The fixed 5 MiB response-size cap (podcast.js line 21). -/
def MAX_RSS_BYTES : Nat := 5 * 1024 * 1024

/-- The HTTP response the fetcher inspects: status code, Location header,
content-encoding header, and the streamed body chunks. -/
structure HttpResponse where
  statusCode : Nat
  location : Option String
  contentEncoding : Option String
  chunks : List (List Nat)

/-- The external world of one fetch: URL parsing, relative-location
resolution, DNS, the network, and the zlib decoders. -/
structure NetEnv where
  parse : String → Option UrlParts
  resolveRel : String → UrlParts → String
  dns : String → List LookupRecord
  net : UrlParts → HttpResponse
  gunzip : List Nat → Option (List Nat)
  inflate : List Nat → Option (List Nat)
  brotli : List Nat → Option (List Nat)

/-- Result of streaming a response body against the byte cap: either the
transfer was destroyed on the chunk that pushed the counter over the cap
(`tooLarge` records how many chunks were consumed), or the body completed
and `complete` carries the concatenated buffer (`Buffer.concat(chunks)`). -/
inductive StreamOutcome
  | tooLarge (chunksSeen : Nat)
  | complete (buffer : List Nat)
deriving DecidableEq, Repr

/-- The `data` handler loop of `fetchRss` (podcast.js lines 581–589):
each chunk first bumps `totalBytes`; if the counter now exceeds the cap the
response is destroyed at once (the chunk is not buffered and no further
chunk is consumed), otherwise the chunk is pushed. -/
def streamChunks (cap : Nat) (chunks : List (List Nat)) (totalBytes seen : Nat)
    (collected : List (List Nat)) : StreamOutcome :=
  match chunks with
  | [] => .complete (collected.reverse.flatten)
  | c :: rest =>
    let total := totalBytes + c.length
    if cap < total then .tooLarge (seen + 1)
    else streamChunks cap rest total (seen + 1) (c :: collected)

/-- Streaming a whole body from the initial counters. -/
def runStream (cap : Nat) (chunks : List (List Nat)) : StreamOutcome :=
  streamChunks cap chunks 0 0 []

/-- The `end` handler of the 200 branch (podcast.js lines 590–616): a
within-cap buffer is decoded according to the content-encoding header
(`gzip`, `deflate`, `br`, anything else passes the buffer through); a
decoder failure is reported as a decode failure. -/
def processBody (env : NetEnv) (r : HttpResponse) : Except FetchErr (List Nat) :=
  match runStream MAX_RSS_BYTES r.chunks with
  | .tooLarge _ => .error .tooLarge
  | .complete buffer =>
    match r.contentEncoding with
    | some enc =>
      if enc = "gzip" then
        match env.gunzip buffer with
        | some decoded => .ok decoded
        | none => .error .decodeFailure
      else if enc = "deflate" then
        match env.inflate buffer with
        | some decoded => .ok decoded
        | none => .error .decodeFailure
      else if enc = "br" then
        match env.brotli buffer with
        | some decoded => .ok decoded
        | none => .error .decodeFailure
      else .ok buffer
    | none => .ok buffer

/-- Truthiness of the Location header (`headers.location`): present and
nonempty. -/
def locationTruthy (loc : Option String) : Bool :=
  match loc with
  | some l => !(l == "")
  | none => false

/-- Worker for `fetchRss`, structurally recursive on `fuel`.  The source
recursion increments `redirectCount` and only recurses while
`redirectCount < MAX_REDIRECTS`, so its depth from count `rc` is at most
`MAX_REDIRECTS + 1 - rc`; any `fuel` of at least that is equivalent, and
the fuel-0 arm (reachable only beyond the budget) returns the same error
the budget check would.  Each hop: parse the URL, run the SSRF guard,
resolve-and-pin a public address for non-literal hostnames, then dispatch
on the response: bounded redirect following with re-validation, non-200
failure, or streaming the body against the cap (podcast.js 518–642). -/
def fetchRssFuel (env : NetEnv) : Nat → String → Nat → Except FetchErr (List Nat)
  | 0, _, _ => .error .tooManyRedirects
  | fuel + 1, targetUrl, redirectCount =>
    match env.parse targetUrl with
    | none => .error .invalidUrl
    | some parsedUrl =>
      match ensurePublicUrl parsedUrl with
      | .error e => .error e
      | .ok _ =>
        let hostname := jsToLower parsedUrl.hostname
        let resolved : Except FetchErr Unit :=
          if isIP hostname = 0 then
            match resolvePublicAddress (env.dns hostname) with
            | .error e => .error e
            | .ok _ => .ok ()
          else .ok ()
        match resolved with
        | .error e => .error e
        | .ok _ =>
          let response := env.net parsedUrl
          if 300 ≤ response.statusCode ∧ response.statusCode < 400 ∧
              locationTruthy response.location = true then
            if MAX_REDIRECTS ≤ redirectCount then .error .tooManyRedirects
            else
              let loc := response.location.getD ""
              let nextUrl := if jsStartsWith loc "http" then loc
                else env.resolveRel loc parsedUrl
              fetchRssFuel env fuel nextUrl (redirectCount + 1)
          else if response.statusCode ≠ 200 then .error (.httpStatus response.statusCode)
          else processBody env response

/-- Embedding of `fetchRss(targetUrl, redirectCount)`; the fuel
`MAX_REDIRECTS + 1` dominates every reachable recursion depth. -/
def fetchRss (env : NetEnv) (targetUrl : String) (redirectCount : Nat := 0) :
    Except FetchErr (List Nat) :=
  fetchRssFuel env (MAX_REDIRECTS + 1) targetUrl redirectCount

/-! ## Streaming lemmas for the byte cap -/

lemma streamChunks_complete (cap : Nat) (chunks : List (List Nat))
    (total seen : Nat) (collected : List (List Nat))
    (h : total + (chunks.map List.length).sum ≤ cap) :
    streamChunks cap chunks total seen collected =
      .complete ((collected.reverse ++ chunks).flatten) := by
  induction chunks generalizing total seen collected with
  | nil => simp [streamChunks]
  | cons c rest ih =>
    simp only [List.map_cons, List.sum_cons] at h
    have hc : ¬ (cap < total + c.length) := by omega
    simp only [streamChunks, hc, if_false]
    rw [ih (total + c.length) (seen + 1) (c :: collected) (by omega)]
    simp

lemma streamChunks_tooLarge (cap : Nat) (chunks : List (List Nat))
    (total seen : Nat) (collected : List (List Nat))
    (hto : total ≤ cap)
    (h : cap < total + (chunks.map List.length).sum) :
    ∃ k, 1 ≤ k ∧ k ≤ chunks.length ∧
      streamChunks cap chunks total seen collected = .tooLarge (seen + k) ∧
      cap < total + ((chunks.take k).map List.length).sum ∧
      total + ((chunks.take (k - 1)).map List.length).sum ≤ cap := by
  induction chunks generalizing total seen collected with
  | nil => simp at h; omega
  | cons c rest ih =>
    simp only [List.map_cons, List.sum_cons] at h
    by_cases hc : cap < total + c.length
    · refine ⟨1, le_refl 1, by simp, ?_, ?_, ?_⟩
      · simp [streamChunks, hc]
      · simpa using hc
      · simpa using hto
    · push_neg at hc
      obtain ⟨k, hk1, hklen, heq, hover, hunder⟩ :=
        ih (total + c.length) (seen + 1) (c :: collected) hc (by omega)
      refine ⟨k + 1, by omega, by simpa using hklen, ?_, ?_, ?_⟩
      · have hc' : ¬ (cap < total + c.length) := by omega
        simp only [streamChunks, hc', if_false]
        rw [heq]
        congr 1
        omega
      · simp only [List.take_succ_cons, List.map_cons, List.sum_cons]
        omega
      · have hk : k + 1 - 1 = k := by omega
        rw [hk]
        rcases Nat.exists_eq_add_of_le hk1 with ⟨k', rfl⟩
        have h3 : 1 + k' = k' + 1 := by omega
        rw [h3]
        simp only [List.take_succ_cons, List.map_cons, List.sum_cons]
        have h2 : 1 + k' - 1 = k' := by omega
        rw [h2] at hunder
        omega


/-! ## Step lemmas for the fetcher -/

lemma fetchRssFuel_redirect_step (env : NetEnv) (fuel : Nat) (url nextUrl : String)
    (rc : Nat) (pu : UrlParts)
    (hparse : env.parse url = some pu)
    (hpub : ensurePublicUrl pu = .ok ())
    (hip : ¬ isIP (jsToLower pu.hostname) = 0)
    (hsc : 300 ≤ (env.net pu).statusCode)
    (hsc2 : (env.net pu).statusCode < 400)
    (hloc : (env.net pu).location = some nextUrl)
    (hhttp : jsStartsWith nextUrl "http" = true)
    (hrc : rc < MAX_REDIRECTS) :
    fetchRssFuel env (fuel + 1) url rc = fetchRssFuel env fuel nextUrl (rc + 1) := by
  have hne : ¬ (nextUrl == "") = true := by
    intro h
    rw [beq_iff_eq] at h
    rw [h] at hhttp
    exact absurd hhttp (by decide)
  have hloc' : locationTruthy (env.net pu).location = true := by
    rw [hloc]
    simp only [locationTruthy, Bool.not_eq_true']
    revert hne
    cases nextUrl == "" <;> simp
  have hcond : 300 ≤ (env.net pu).statusCode ∧ (env.net pu).statusCode < 400 ∧
      locationTruthy (env.net pu).location = true := ⟨hsc, hsc2, hloc'⟩
  have hrc' : ¬ (MAX_REDIRECTS ≤ rc) := by omega
  simp only [fetchRssFuel, hparse, hpub, if_neg hip]
  rw [if_pos hcond, if_neg hrc']
  simp only [hloc, Option.getD_some, hhttp, if_pos]

lemma fetchRssFuel_over_budget (env : NetEnv) (fuel : Nat) (url nextUrl : String)
    (rc : Nat) (pu : UrlParts)
    (hparse : env.parse url = some pu)
    (hpub : ensurePublicUrl pu = .ok ())
    (hip : ¬ isIP (jsToLower pu.hostname) = 0)
    (hsc : 300 ≤ (env.net pu).statusCode)
    (hsc2 : (env.net pu).statusCode < 400)
    (hloc : (env.net pu).location = some nextUrl)
    (hhttp : jsStartsWith nextUrl "http" = true)
    (hrc : MAX_REDIRECTS ≤ rc) :
    fetchRssFuel env (fuel + 1) url rc = .error .tooManyRedirects := by
  have hne : ¬ (nextUrl == "") = true := by
    intro h
    rw [beq_iff_eq] at h
    rw [h] at hhttp
    exact absurd hhttp (by decide)
  have hloc' : locationTruthy (env.net pu).location = true := by
    rw [hloc]
    simp only [locationTruthy, Bool.not_eq_true']
    revert hne
    cases nextUrl == "" <;> simp
  have hcond : 300 ≤ (env.net pu).statusCode ∧ (env.net pu).statusCode < 400 ∧
      locationTruthy (env.net pu).location = true := ⟨hsc, hsc2, hloc'⟩
  simp only [fetchRssFuel, hparse, hpub, if_neg hip]
  rw [if_pos hcond, if_pos hrc]

lemma fetchRssFuel_ok_body (env : NetEnv) (fuel : Nat) (url : String)
    (rc : Nat) (pu : UrlParts) (body : List Nat)
    (hparse : env.parse url = some pu)
    (hpub : ensurePublicUrl pu = .ok ())
    (hip : ¬ isIP (jsToLower pu.hostname) = 0)
    (hsc : (env.net pu).statusCode = 200)
    (henc : (env.net pu).contentEncoding = none)
    (hchunks : (env.net pu).chunks = [body])
    (hlen : body.length ≤ MAX_RSS_BYTES) :
    fetchRssFuel env (fuel + 1) url rc = .ok body := by
  have hcond : ¬ (300 ≤ (env.net pu).statusCode ∧ (env.net pu).statusCode < 400 ∧
      locationTruthy (env.net pu).location = true) := by
    rw [hsc]
    rintro ⟨h1, -, -⟩
    omega
  have hsc' : ¬ ((env.net pu).statusCode ≠ 200) := by rw [hsc]; simp
  have hstream : runStream MAX_RSS_BYTES (env.net pu).chunks = .complete body := by
    rw [hchunks]
    unfold runStream
    rw [streamChunks_complete MAX_RSS_BYTES [body] 0 0 [] (by simpa using hlen)]
    simp
  simp only [fetchRssFuel, hparse, hpub, if_neg hip, if_neg hcond, if_neg hsc',
    processBody, hstream, henc]


/-! ## Claim C4: the redirect budget -/

lemma fetchRssFuel_redirect_pred (env : NetEnv) (fuel : Nat) (url nextUrl : String)
    (rc : Nat) (pu : UrlParts)
    (hfuel : 0 < fuel)
    (hparse : env.parse url = some pu)
    (hpub : ensurePublicUrl pu = .ok ())
    (hip : ¬ isIP (jsToLower pu.hostname) = 0)
    (hsc : 300 ≤ (env.net pu).statusCode)
    (hsc2 : (env.net pu).statusCode < 400)
    (hloc : (env.net pu).location = some nextUrl)
    (hhttp : jsStartsWith nextUrl "http" = true)
    (hrc : rc < MAX_REDIRECTS) :
    fetchRssFuel env fuel url rc = fetchRssFuel env (fuel - 1) nextUrl (rc + 1) := by
  cases fuel with
  | zero => omega
  | succ f =>
    simpa using fetchRssFuel_redirect_step env f url nextUrl rc pu hparse hpub hip
      hsc hsc2 hloc hhttp hrc

lemma fetchRssFuel_over_budget_pred (env : NetEnv) (fuel : Nat) (url nextUrl : String)
    (rc : Nat) (pu : UrlParts)
    (hfuel : 0 < fuel)
    (hparse : env.parse url = some pu)
    (hpub : ensurePublicUrl pu = .ok ())
    (hip : ¬ isIP (jsToLower pu.hostname) = 0)
    (hsc : 300 ≤ (env.net pu).statusCode)
    (hsc2 : (env.net pu).statusCode < 400)
    (hloc : (env.net pu).location = some nextUrl)
    (hhttp : jsStartsWith nextUrl "http" = true)
    (hrc : MAX_REDIRECTS ≤ rc) :
    fetchRssFuel env fuel url rc = .error .tooManyRedirects := by
  cases fuel with
  | zero => rfl
  | succ f =>
    exact fetchRssFuel_over_budget env f url nextUrl rc pu hparse hpub hip
      hsc hsc2 hloc hhttp hrc

lemma fetchRssFuel_ok_body_pred (env : NetEnv) (fuel : Nat) (url : String)
    (rc : Nat) (pu : UrlParts) (body : List Nat)
    (hfuel : 0 < fuel)
    (hparse : env.parse url = some pu)
    (hpub : ensurePublicUrl pu = .ok ())
    (hip : ¬ isIP (jsToLower pu.hostname) = 0)
    (hsc : (env.net pu).statusCode = 200)
    (henc : (env.net pu).contentEncoding = none)
    (hchunks : (env.net pu).chunks = [body])
    (hlen : body.length ≤ MAX_RSS_BYTES) :
    fetchRssFuel env fuel url rc = .ok body := by
  cases fuel with
  | zero => omega
  | succ f =>
    exact fetchRssFuel_ok_body env f url rc pu body hparse hpub hip hsc henc hchunks hlen

/-- C4: the fetcher follows a redirect chain, re-validating each hop, up to
the budget of `MAX_REDIRECTS = 3`: a chain of 3 redirects ending in a 200
succeeds with the final body, and a chain of 4 redirects fails with the
too-many-redirects error. -/
theorem fetchRss_redirect_budget (env : NetEnv) (n : Nat) (u : Nat → String)
    (p : Nat → UrlParts) (body : List Nat)
    (hparse : ∀ i, i ≤ n → env.parse (u i) = some (p i))
    (hpub : ∀ i, i ≤ n → ensurePublicUrl (p i) = .ok ())
    (hip : ∀ i, i ≤ n → ¬ isIP (jsToLower (p i).hostname) = 0)
    (hredir : ∀ i, i < n → 300 ≤ (env.net (p i)).statusCode ∧
      (env.net (p i)).statusCode < 400 ∧
      (env.net (p i)).location = some (u (i + 1)) ∧
      jsStartsWith (u (i + 1)) "http" = true)
    (hsc : (env.net (p n)).statusCode = 200)
    (henc : (env.net (p n)).contentEncoding = none)
    (hchunks : (env.net (p n)).chunks = [body])
    (hlen : body.length ≤ MAX_RSS_BYTES) :
    (n ≤ MAX_REDIRECTS → fetchRss env (u 0) = .ok body) ∧
    (n = MAX_REDIRECTS + 1 → fetchRss env (u 0) = .error .tooManyRedirects) := by
  constructor
  · intro hn
    rw [show fetchRss env (u 0) = fetchRssFuel env (MAX_REDIRECTS + 1) (u 0) 0 from rfl]
    simp only [MAX_REDIRECTS] at hn ⊢
    interval_cases n
    · exact fetchRssFuel_ok_body_pred env 4 (u 0) 0 (p 0) body (by omega)
        (hparse 0 (by omega)) (hpub 0 (by omega)) (hip 0 (by omega)) hsc henc hchunks hlen
    · rw [fetchRssFuel_redirect_pred env 4 (u 0) (u 1) 0 (p 0) (by omega)
        (hparse 0 (by omega)) (hpub 0 (by omega)) (hip 0 (by omega))
        (hredir 0 (by omega)).1 (hredir 0 (by omega)).2.1
        (hredir 0 (by omega)).2.2.1 (hredir 0 (by omega)).2.2.2 (by decide)]
      exact fetchRssFuel_ok_body_pred env (4 - 1) (u 1) 1 (p 1) body (by omega)
        (hparse 1 (by omega)) (hpub 1 (by omega)) (hip 1 (by omega)) hsc henc hchunks hlen
    · rw [fetchRssFuel_redirect_pred env 4 (u 0) (u 1) 0 (p 0) (by omega)
        (hparse 0 (by omega)) (hpub 0 (by omega)) (hip 0 (by omega))
        (hredir 0 (by omega)).1 (hredir 0 (by omega)).2.1
        (hredir 0 (by omega)).2.2.1 (hredir 0 (by omega)).2.2.2 (by decide)]
      rw [fetchRssFuel_redirect_pred env (4 - 1) (u 1) (u 2) 1 (p 1) (by omega)
        (hparse 1 (by omega)) (hpub 1 (by omega)) (hip 1 (by omega))
        (hredir 1 (by omega)).1 (hredir 1 (by omega)).2.1
        (hredir 1 (by omega)).2.2.1 (hredir 1 (by omega)).2.2.2 (by decide)]
      exact fetchRssFuel_ok_body_pred env (4 - 1 - 1) (u 2) 2 (p 2) body (by omega)
        (hparse 2 (by omega)) (hpub 2 (by omega)) (hip 2 (by omega)) hsc henc hchunks hlen
    · rw [fetchRssFuel_redirect_pred env 4 (u 0) (u 1) 0 (p 0) (by omega)
        (hparse 0 (by omega)) (hpub 0 (by omega)) (hip 0 (by omega))
        (hredir 0 (by omega)).1 (hredir 0 (by omega)).2.1
        (hredir 0 (by omega)).2.2.1 (hredir 0 (by omega)).2.2.2 (by decide)]
      rw [fetchRssFuel_redirect_pred env (4 - 1) (u 1) (u 2) 1 (p 1) (by omega)
        (hparse 1 (by omega)) (hpub 1 (by omega)) (hip 1 (by omega))
        (hredir 1 (by omega)).1 (hredir 1 (by omega)).2.1
        (hredir 1 (by omega)).2.2.1 (hredir 1 (by omega)).2.2.2 (by decide)]
      rw [fetchRssFuel_redirect_pred env (4 - 1 - 1) (u 2) (u 3) 2 (p 2) (by omega)
        (hparse 2 (by omega)) (hpub 2 (by omega)) (hip 2 (by omega))
        (hredir 2 (by omega)).1 (hredir 2 (by omega)).2.1
        (hredir 2 (by omega)).2.2.1 (hredir 2 (by omega)).2.2.2 (by decide)]
      exact fetchRssFuel_ok_body_pred env (4 - 1 - 1 - 1) (u 3) 3 (p 3) body (by omega)
        (hparse 3 (by omega)) (hpub 3 (by omega)) (hip 3 (by omega)) hsc henc hchunks hlen
  · intro hn
    subst hn
    rw [show fetchRss env (u 0) = fetchRssFuel env (MAX_REDIRECTS + 1) (u 0) 0 from rfl]
    simp only [MAX_REDIRECTS]
    rw [fetchRssFuel_redirect_pred env 4 (u 0) (u 1) 0 (p 0) (by decide)
      (hparse 0 (by decide)) (hpub 0 (by decide)) (hip 0 (by decide))
      (hredir 0 (by decide)).1 (hredir 0 (by decide)).2.1
      (hredir 0 (by decide)).2.2.1 (hredir 0 (by decide)).2.2.2 (by decide)]
    rw [fetchRssFuel_redirect_pred env (4 - 1) (u 1) (u 2) 1 (p 1) (by decide)
      (hparse 1 (by decide)) (hpub 1 (by decide)) (hip 1 (by decide))
      (hredir 1 (by decide)).1 (hredir 1 (by decide)).2.1
      (hredir 1 (by decide)).2.2.1 (hredir 1 (by decide)).2.2.2 (by decide)]
    rw [fetchRssFuel_redirect_pred env (4 - 1 - 1) (u 2) (u 3) 2 (p 2) (by decide)
      (hparse 2 (by decide)) (hpub 2 (by decide)) (hip 2 (by decide))
      (hredir 2 (by decide)).1 (hredir 2 (by decide)).2.1
      (hredir 2 (by decide)).2.2.1 (hredir 2 (by decide)).2.2.2 (by decide)]
    exact fetchRssFuel_over_budget_pred env (4 - 1 - 1 - 1) (u 3) (u 4) 3 (p 3) (by decide)
      (hparse 3 (by decide)) (hpub 3 (by decide)) (hip 3 (by decide))
      (hredir 3 (by decide)).1 (hredir 3 (by decide)).2.1
      (hredir 3 (by decide)).2.2.1 (hredir 3 (by decide)).2.2.2 (by decide)


/-! ## Claim C3: the byte cap -/

lemma fetchRssFuel_200 (env : NetEnv) (fuel : Nat) (url : String) (rc : Nat) (pu : UrlParts)
    (hparse : env.parse url = some pu)
    (hpub : ensurePublicUrl pu = .ok ())
    (hip : ¬ isIP (jsToLower pu.hostname) = 0)
    (hsc : (env.net pu).statusCode = 200) :
    fetchRssFuel env (fuel + 1) url rc = processBody env (env.net pu) := by
  have hcond : ¬ (300 ≤ (env.net pu).statusCode ∧ (env.net pu).statusCode < 400 ∧
      locationTruthy (env.net pu).location = true) := by
    rw [hsc]
    rintro ⟨h1, -, -⟩
    omega
  have hsc' : ¬ ((env.net pu).statusCode ≠ 200) := by rw [hsc]; simp
  simp only [fetchRssFuel, hparse, hpub, if_neg hip, if_neg hcond, if_neg hsc']

/-- C3: the body stream is aborted on exactly the chunk that first pushes
the byte counter over the fixed 5 MiB cap — `k` chunks are consumed where
the sum of the first `k` chunk sizes exceeds the cap and the sum of the
first `k - 1` does not — and a body whose total size is within the cap is
received in full; lifted to `fetchRss`, an over-cap body fails with the
too-large error and a within-cap unencoded body is returned whole. -/
theorem fetchRss_byte_cap :
    (∀ chunks : List (List Nat), MAX_RSS_BYTES < (chunks.map List.length).sum →
      ∃ k, 1 ≤ k ∧ k ≤ chunks.length ∧
        runStream MAX_RSS_BYTES chunks = .tooLarge k ∧
        MAX_RSS_BYTES < ((chunks.take k).map List.length).sum ∧
        ((chunks.take (k - 1)).map List.length).sum ≤ MAX_RSS_BYTES) ∧
    (∀ chunks : List (List Nat), (chunks.map List.length).sum ≤ MAX_RSS_BYTES →
      runStream MAX_RSS_BYTES chunks = .complete chunks.flatten) ∧
    (∀ (env : NetEnv) (url : String) (pu : UrlParts),
      env.parse url = some pu → ensurePublicUrl pu = .ok () →
      ¬ isIP (jsToLower pu.hostname) = 0 →
      (env.net pu).statusCode = 200 → (env.net pu).contentEncoding = none →
      (MAX_RSS_BYTES < ((env.net pu).chunks.map List.length).sum →
        fetchRss env url = .error .tooLarge) ∧
      (((env.net pu).chunks.map List.length).sum ≤ MAX_RSS_BYTES →
        fetchRss env url = .ok (env.net pu).chunks.flatten)) := by
  have hstream_over : ∀ chunks : List (List Nat),
      MAX_RSS_BYTES < (chunks.map List.length).sum →
      ∃ k, 1 ≤ k ∧ k ≤ chunks.length ∧
        runStream MAX_RSS_BYTES chunks = .tooLarge k ∧
        MAX_RSS_BYTES < ((chunks.take k).map List.length).sum ∧
        ((chunks.take (k - 1)).map List.length).sum ≤ MAX_RSS_BYTES := by
    intro chunks h
    obtain ⟨k, hk1, hklen, heq, hover, hunder⟩ :=
      streamChunks_tooLarge MAX_RSS_BYTES chunks 0 0 [] (by omega) (by omega)
    refine ⟨k, hk1, hklen, ?_, by omega, by omega⟩
    unfold runStream
    rw [heq]
    congr 1
    omega
  have hstream_ok : ∀ chunks : List (List Nat),
      (chunks.map List.length).sum ≤ MAX_RSS_BYTES →
      runStream MAX_RSS_BYTES chunks = .complete chunks.flatten := by
    intro chunks h
    unfold runStream
    rw [streamChunks_complete MAX_RSS_BYTES chunks 0 0 [] (by omega)]
    simp
  refine ⟨hstream_over, hstream_ok, ?_⟩
  intro env url pu hparse hpub hip hsc henc
  have h200 : fetchRss env url = processBody env (env.net pu) :=
    fetchRssFuel_200 env MAX_REDIRECTS url 0 pu hparse hpub hip hsc
  constructor
  · intro hover
    obtain ⟨k, -, -, heq, -, -⟩ := hstream_over (env.net pu).chunks hover
    rw [h200]
    simp only [processBody, heq]
  · intro hwithin
    rw [h200]
    simp only [processBody, hstream_ok (env.net pu).chunks hwithin, henc]

/-- One-URL network environment serving a small 200 response, used to
instantiate the fetch theorems at a concrete input. -/
def smallEnv : NetEnv where
  parse := fun s => some ⟨"http:", "93.184.216.34", s⟩
  resolveRel := fun l _ => l
  dns := fun _ => []
  net := fun _ =>
    { statusCode := 200, location := none, contentEncoding := none, chunks := [[104, 105]] }
  gunzip := fun _ => none
  inflate := fun _ => none
  brotli := fun _ => none

/-- Witness for C3: a two-byte body is far below the cap, so the concrete
fetch returns it in full. -/
theorem fetchRss_byte_cap_witness :
    ((smallEnv.net ⟨"http:", "93.184.216.34", "http://93.184.216.34/feed"⟩).chunks.map
        List.length).sum ≤ MAX_RSS_BYTES ∧
    fetchRss smallEnv "http://93.184.216.34/feed" = .ok [104, 105] := by
  refine ⟨by decide, ?_⟩
  exact (fetchRss_byte_cap.2.2 smallEnv "http://93.184.216.34/feed"
      ⟨"http:", "93.184.216.34", "http://93.184.216.34/feed"⟩
      rfl (by decide) (by decide) rfl rfl).2 (by decide)



/-- The URLs of a concrete 3-redirect chain ending in a 200. -/
def w4u (i : Nat) : String :=
  List.getD ["http://93.184.216.34/0", "http://93.184.216.34/1", "http://93.184.216.34/2",
    "http://93.184.216.34/3", "http://93.184.216.34/4"] i "http://93.184.216.34/4"

/-- Parsed parts of the chain URLs. -/
def w4p (i : Nat) : UrlParts := ⟨"http:", "93.184.216.34", w4u i⟩

/-- A 301 response pointing at `next`. -/
def w4redir (next : String) : HttpResponse :=
  ⟨301, some next, none, []⟩

/-- The final 200 response with a one-byte body. -/
def w4final : HttpResponse :=
  ⟨200, none, none, [[104]]⟩

/-- Network environment whose responses form the redirect chain
`w4u 0 → w4u 1 → w4u 2 → w4u 3 (200)`. -/
def w4env : NetEnv where
  parse := fun s => some ⟨"http:", "93.184.216.34", s⟩
  resolveRel := fun l _ => l
  dns := fun _ => []
  net := fun pt =>
    if pt.href = w4u 0 then w4redir (w4u 1)
    else if pt.href = w4u 1 then w4redir (w4u 2)
    else if pt.href = w4u 2 then w4redir (w4u 3)
    else w4final
  gunzip := fun _ => none
  inflate := fun _ => none
  brotli := fun _ => none

/-- Witness for C4: the concrete 3-redirect chain stays within the budget
and the fetch returns the final body. -/
theorem fetchRss_redirect_budget_witness :
    3 ≤ MAX_REDIRECTS ∧ fetchRss w4env (w4u 0) = .ok [104] := by
  refine ⟨by decide, ?_⟩
  exact (fetchRss_redirect_budget w4env 3 w4u w4p [104]
    (by decide) (by decide) (by decide) (by decide) (by decide) (by decide) (by decide)
    (by decide)).1 (by decide)


/-! ## JavaScript values (`JVal`) -/

/-- JavaScript values as produced by fast-xml-parser and the query layer:
the dynamic payloads flowing through the extractor. -/
inductive JVal where
  | undef
  | jnull
  | bool (b : Bool)
  | num (n : Int)
  | str (s : String)
  | arr (elems : List JVal)
  | obj (fields : List (String × JVal))

def natToDigits : Nat → Nat → List Char → List Char
  | 0, _, acc => acc
  | fuel + 1, n, acc =>
    if n < 10 then Char.ofNat (48 + n) :: acc
    else natToDigits fuel (n / 10) (Char.ofNat (48 + n % 10) :: acc)

/-- Decimal rendering of a natural number. -/
def natToStr (n : Nat) : String := ⟨natToDigits (n + 1) n []⟩

/-- Decimal rendering of an integer (JS `String(number)` for integers). -/
def intToStr (i : Int) : String :=
  if i < 0 then "-" ++ natToStr i.natAbs else natToStr i.natAbs

def joinCommas : List String → String
  | [] => ""
  | [s] => s
  | s :: t => s ++ "," ++ joinCommas t

mutual
/-- JS `String(value)` coercion: arrays join their elements with commas
(null/undefined elements become empty), objects print as
"[object Object]". -/
def jvToStr : JVal → String
  | .undef => "undefined"
  | .jnull => "null"
  | .bool b => if b then "true" else "false"
  | .num n => intToStr n
  | .str s => s
  | .arr elems => joinCommas (jvToStrArrElems elems)
  | .obj _ => "[object Object]"

/-- Stringification of array elements for `Array.prototype.toString`. -/
def jvToStrArrElems : List JVal → List String
  | [] => []
  | .undef :: t => "" :: jvToStrArrElems t
  | .jnull :: t => "" :: jvToStrArrElems t
  | v :: t => jvToStr v :: jvToStrArrElems t
end




/-- JS truthiness of a value (`!!value`): empty string, 0, null, undefined
and false are falsy; arrays and objects are always truthy. -/
def truthy : JVal → Bool
  | .undef => false
  | .jnull => false
  | .bool b => b
  | .num n => !(n == 0)
  | .str s => !(s == "")
  | .arr _ => true
  | .obj _ => true

/-- JS `a || b` on values: the first operand when truthy, else the second. -/
def jor (a b : JVal) : JVal := if truthy a then a else b

def jgetFields : List (String × JVal) → String → JVal
  | [], _ => .undef
  | (k', v) :: t, k => if k' = k then v else jgetFields t k

/-- JS optional member access `v?.[k]`: field lookup on objects, `undefined`
on everything else. -/
def jget : JVal → String → JVal
  | .obj fields, k => jgetFields fields k
  | _, _ => (.undef)

/-! ## Regex-replacement framework

Each `String.prototype.replace(regex, repl)` call of the source becomes a
left-to-right scan: at every position a matcher either consumes the
leftmost match (returning the replacement and the remaining input) or the
scan moves one character forward.  Matched text is never rescanned, as in
JS.  `fuel` makes the recursion structural; `length + 1` always
suffices because every step consumes at least one character. -/

def scanReplace (step : List Char → Option (List Char × List Char)) :
    Nat → List Char → List Char
  | 0, l => l
  | _ + 1, [] => []
  | fuel + 1, c :: t =>
    match step (c :: t) with
    | some (repl, rest) => repl ++ scanReplace step fuel rest
    | none => c :: scanReplace step fuel t

/-- Run a fixed-replacement matcher over the whole input. -/
def replaceAll (m : List Char → Option (List Char)) (repl : List Char)
    (l : List Char) : List Char :=
  scanReplace (fun l => (m l).map (fun rest => (repl, rest))) (l.length + 1) l

/-- Consume one expected character. -/
def dropChar (c : Char) : List Char → Option (List Char)
  | x :: t => if x = c then some t else none
  | [] => none

/-- Consume an optional character. -/
def dropOpt (c : Char) (l : List Char) : List Char :=
  match l with
  | x :: t => if x = c then t else l
  | [] => l

/-- Consume `\s*`. -/
def skipWs (l : List Char) : List Char := l.dropWhile isJsSpace

/-- Case-insensitive prefix test against a lowercase pattern. -/
def prefixCI : List Char → List Char → Bool
  | [], _ => true
  | _ :: _, [] => false
  | p :: ps, c :: cs => p = c.toLower && prefixCI ps cs

/-- Consume a case-insensitive pattern (given in lowercase). -/
def dropPrefixCI (pat : List Char) (l : List Char) : Option (List Char) :=
  if prefixCI pat l then some (l.drop pat.length) else none

/-- Consume a case-sensitive pattern. -/
def dropPrefixCS (pat : List Char) (l : List Char) : Option (List Char) :=
  if pat.isPrefixOf l then some (l.drop pat.length) else none

/-- Consume `[^>]*>`: everything up to and including the next `>`. -/
def dropUntilGt (r : List Char) : Option (List Char) :=
  dropChar '>' (r.dropWhile (fun c => !(c == '>')))

/-- Consume `[^>]+>`: at least one non-`>` character, then `>`. -/
def dropUntilGtPos (r : List Char) : Option (List Char) :=
  match r with
  | '>' :: _ => none
  | [] => none
  | _ => dropUntilGt r

/-- Consume everything up to and including the first case-insensitive
occurrence of `pat` (lazy `[\s\S]*?pat`). -/
def dropThroughCI (pat : List Char) : Nat → List Char → Option (List Char)
  | 0, _ => none
  | fuel + 1, l =>
    if prefixCI pat l then some (l.drop pat.length)
    else
      match l with
      | [] => none
      | _ :: t => dropThroughCI pat fuel t

/-! ### Matchers for the individual regexes -/

/-- `/<(br|BR)\s*\/?>/g` (toText line 167): case-sensitive `br` or `BR`. -/
def matchBrText (l : List Char) : Option (List Char) :=
  (dropChar '<' l).bind fun r =>
    (match dropPrefixCS ['b', 'r'] r with
     | some x => some x
     | none => dropPrefixCS ['B', 'R'] r).bind fun r =>
      dropChar '>' (dropOpt '/' (skipWs r))

/-- Try `name(ci)>` alternatives in regex order. -/
def tryCloseAlts (alts : List (List Char)) (r : List Char) : Option (List Char) :=
  match alts with
  | [] => none
  | a :: rest =>
    match (dropPrefixCI a r).bind (dropChar '>') with
    | some x => some x
    | none => tryCloseAlts rest r

/-- `/<\/(p|div|li|h[1-6])>/gi` (toText line 168). -/
def matchCloserText (l : List Char) : Option (List Char) :=
  ((dropChar '<' l).bind (dropChar '/')).bind
    (tryCloseAlts [['p'], ['d','i','v'], ['l','i'],
      ['h','1'], ['h','2'], ['h','3'], ['h','4'], ['h','5'], ['h','6']])

/-- `/<[^>]*>/g` (toText line 169). -/
def matchAnyTag (l : List Char) : Option (List Char) :=
  (dropChar '<' l).bind dropUntilGt

/-- `/<[^>]+>/g` (convertHtmlToPlainText line 198). -/
def matchAnyTagPos (l : List Char) : Option (List Char) :=
  (dropChar '<' l).bind dropUntilGtPos

/-- `/\r\n?/g`. -/
def matchCrLf (l : List Char) : Option (List Char) :=
  match l with
  | '\r' :: '\n' :: t => some t
  | '\r' :: t => some t
  | _ => none

/-- `/[ \t]+\n/g` (toText line 171). -/
def matchSpTabNl (l : List Char) : Option (List Char) :=
  let sp := l.takeWhile (fun c => c == ' ' || c == '\t')
  if sp.isEmpty then none
  else
    match l.drop sp.length with
    | '\n' :: t => some t
    | _ => none

/-- `/\n{3,}/g`. -/
def matchThreeNl (l : List Char) : Option (List Char) :=
  let nl := l.takeWhile (fun c => c == '\n')
  if 3 ≤ nl.length then some (l.drop nl.length) else none

/-- JS `String.prototype.trim` (ASCII whitespace). -/
def jsTrimL (l : List Char) : List Char :=
  ((l.dropWhile isJsSpace).reverse.dropWhile isJsSpace).reverse

/-- JS trim on strings. -/
def jsTrim (s : String) : String := ⟨jsTrimL s.data⟩

/-- External npm collaborators of the content pipeline: `he.decode`,
`sanitize-html` with the fixed `sanitizeOptions`, and `new
Date(·).getTime()` (`none` = NaN). -/
structure ExtLib where
  heDecode : String → String
  sanitize : String → String
  dateParse : JVal → Option Int

/-- Embedding of `decodeHtml` (podcast.js lines 154–159): non-strings and
falsy values decode to "", strings go through `he.decode`. -/
def decodeHtml (ext : ExtLib) (value : JVal) : String :=
  match value with
  | .str s => if s = "" then "" else ext.heDecode s
  | _ => ""

/-- Embedding of `toText` (podcast.js lines 161–174): entity-decode, turn
`<br>` and the closers `</p> </div> </li> </h1..6>` into single newlines,
strip all remaining tags, normalize line endings, drop trailing
space/tab runs before newlines, collapse 3+ newlines to a blank line and
trim. -/
def toText (ext : ExtLib) (value : JVal) : String :=
  let decoded := decodeHtml ext value
  if decoded = "" then ""
  else
    ⟨jsTrimL
      (replaceAll matchThreeNl ['\n', '\n']
        (replaceAll matchSpTabNl ['\n']
          (replaceAll matchCrLf ['\n']
            (replaceAll matchAnyTag []
              (replaceAll matchCloserText ['\n']
                (replaceAll matchBrText ['\n'] decoded.data))))))⟩



/-- Blockquote sentinel tokens (podcast.js lines 23–24). -/
def BLOCKQUOTE_OPEN_TOKEN : String := "__BLOCKQUOTE_OPEN__"

/-- Closing blockquote sentinel. -/
def BLOCKQUOTE_CLOSE_TOKEN : String := "__BLOCKQUOTE_CLOSE__"

/-- `/<name[^>]*>/gi`: `<` immediately followed by the tag name
(case-insensitively), then anything up to `>`.  Note that this also
matches longer tag names sharing the prefix, exactly like the source
regexes (so `<b...>` also matches `<br>` and `<blockquote>`). -/
def matchOpenTag (name : List Char) (l : List Char) : Option (List Char) :=
  ((dropChar '<' l).bind (dropPrefixCI name)).bind dropUntilGt

/-- `/<\/name>/gi`: the exact closing tag, case-insensitively. -/
def matchCloseTagExact (name : List Char) (l : List Char) : Option (List Char) :=
  (((dropChar '<' l).bind (dropChar '/')).bind (dropPrefixCI name)).bind (dropChar '>')

/-- `/<\s*br\s*\/?\s*>/gi` (convertHtmlToPlainText line 189). -/
def matchBrFlex (l : List Char) : Option (List Char) :=
  ((dropChar '<' l).map skipWs).bind fun r =>
    (dropPrefixCI ['b', 'r'] r).bind fun r =>
      dropChar '>' (skipWs (dropOpt '/' (skipWs r)))

/-- Try `name(ci)[^>]*>` alternatives in regex order. -/
def tryOpenAlts (alts : List (List Char)) (r : List Char) : Option (List Char) :=
  match alts with
  | [] => none
  | a :: rest =>
    match (dropPrefixCI a r).bind dropUntilGt with
    | some x => some x
    | none => tryOpenAlts rest r

/-- The `h[1-6]|section|article` alternatives. -/
def hSectionArticleAlts : List (List Char) :=
  [['h','1'], ['h','2'], ['h','3'], ['h','4'], ['h','5'], ['h','6'],
    ['s','e','c','t','i','o','n'], ['a','r','t','i','c','l','e']]

/-- `/<\s*(h[1-6]|section|article)[^>]*>/gi` (line 192). -/
def matchOpenFlexAlts (l : List Char) : Option (List Char) :=
  ((dropChar '<' l).map skipWs).bind (tryOpenAlts hSectionArticleAlts)

/-- `/<\/\s*(h[1-6]|section|article)>/gi` (line 193). -/
def matchCloseFlexAlts (l : List Char) : Option (List Char) :=
  (((dropChar '<' l).bind (dropChar '/')).map skipWs).bind
    (tryCloseAlts hSectionArticleAlts)

/-- `/<script[\s\S]*?>[\s\S]*?<\/script>/gi` and the `style` analogue:
the literal opener, lazily up to the first `>`, then lazily up to the
first closing tag. -/
def matchScriptLike (name : List Char) (l : List Char) : Option (List Char) :=
  ((dropPrefixCI ('<' :: name) l).bind dropUntilGt).bind fun r =>
    dropThroughCI ('<' :: '/' :: name ++ ['>']) (r.length + 1) r

/-- Embedding of `convertHtmlToPlainText` (podcast.js lines 176–202): the
source's 20 sequential `replace` passes, in order.  The value is first
coerced with `String(value)` (null/undefined become "").  Note the `<b...>`
pass runs before the `<br>` and `<blockquote...>` passes, so (as in the
source) those openers are consumed as bold-open tokens. -/
def convertHtmlToPlainText (value : JVal) : String :=
  let text :=
    match value with
    | .undef => ""
    | .jnull => ""
    | v => jvToStr v
  ⟨jsTrimL
    (replaceAll matchThreeNl ['\n', '\n']
      (replaceAll matchCrLf ['\n']
        (replaceAll matchAnyTagPos []
          (replaceAll (matchScriptLike ['s','t','y','l','e']) []
            (replaceAll (matchScriptLike ['s','c','r','i','p','t']) []
              (replaceAll (matchCloseTagExact ['l','i']) ['\n']
                (replaceAll (matchOpenTag ['l','i']) ['•', ' ']
                  (replaceAll matchCloseFlexAlts ['\n', '\n']
                    (replaceAll matchOpenFlexAlts ['\n', '\n']
                      (replaceAll (matchCloseTagExact ['d','i','v']) ['\n', '\n']
                        (replaceAll (matchCloseTagExact ['p']) ['\n', '\n']
                          (replaceAll matchBrFlex ['\n']
                            (replaceAll (matchCloseTagExact
                                ['b','l','o','c','k','q','u','o','t','e'])
                              (('\n' :: '\n' :: BLOCKQUOTE_CLOSE_TOKEN.data) ++ ['\n', '\n'])
                              (replaceAll (matchOpenTag
                                  ['b','l','o','c','k','q','u','o','t','e'])
                                (('\n' :: '\n' :: BLOCKQUOTE_OPEN_TOKEN.data) ++ ['\n', '\n'])
                                (replaceAll (matchCloseTagExact ['i']) "__EM_CLOSE__".data
                                  (replaceAll (matchOpenTag ['i']) "__EM_OPEN__".data
                                    (replaceAll (matchCloseTagExact ['e','m'])
                                      "__EM_CLOSE__".data
                                      (replaceAll (matchOpenTag ['e','m'])
                                        "__EM_OPEN__".data
                                        (replaceAll (matchCloseTagExact ['b'])
                                          "__STRONG_CLOSE__".data
                                          (replaceAll (matchOpenTag ['b'])
                                            "__STRONG_OPEN__".data
                                            (replaceAll (matchCloseTagExact
                                                ['s','t','r','o','n','g'])
                                              "__STRONG_CLOSE__".data
                                              (replaceAll (matchOpenTag
                                                  ['s','t','r','o','n','g'])
                                                "__STRONG_OPEN__".data
                                                text.data))))))))))))))))))))))⟩


/-! ## Claim C7: paragraph closers in the plain-text derivation -/

/-- C7, counterexample: `toText` — the source symbol the spec's
`toPlainText` refers to — maps each `</p>` to a single newline, so on
"<p>Hi</p><p>There</p>" (with the entity decoder acting as the identity on
this entity-free input) it returns "Hi\nThere", not the claimed
"Hi\n\nThere" with a blank line. -/
theorem toText_paragraph_counterexample :
    ¬ (toText ⟨id, id, fun _ => none⟩ (.str "<p>Hi</p><p>There</p>") = "Hi

There") := by
  intro h
  have hv : toText ⟨id, id, fun _ => none⟩ (.str "<p>Hi</p><p>There</p>") = "Hi
There" := by
    decide
  rw [hv] at h
  exact absurd h (by decide)

/-- C7 (amended): `toText` turns each paragraph closer into one newline,
yielding "Hi\nThere" on the spec's example (for any entity decoder that
leaves the entity-free input unchanged); the blank-line behaviour the spec
describes belongs to the other plain-text converter,
`convertHtmlToPlainText`, which maps `</p>` to two newlines and yields
exactly "Hi\n\nThere". -/
theorem toText_paragraph_amended :
    (∀ (he hs : String → String) (dp : JVal → Option Int),
      he "<p>Hi</p><p>There</p>" = "<p>Hi</p><p>There</p>" →
      toText ⟨he, hs, dp⟩ (.str "<p>Hi</p><p>There</p>") = "Hi
There") ∧
    convertHtmlToPlainText (.str "<p>Hi</p><p>There</p>") = "Hi

There" := by
  constructor
  · intro he hs dp h
    simp only [toText, decodeHtml]
    rw [if_neg (show ¬("<p>Hi</p><p>There</p>" = "") by decide)]
    rw [h]
    rw [if_neg (show ¬("<p>Hi</p><p>There</p>" = "") by decide)]
    decide
  · decide

/-- Witness for the amended C7 at the identity entity decoder. -/
theorem toText_paragraph_amended_witness :
    (id : String → String) "<p>Hi</p><p>There</p>" = "<p>Hi</p><p>There</p>" ∧
    toText ⟨id, id, fun _ => none⟩ (.str "<p>Hi</p><p>There</p>") = "Hi
There" :=
  ⟨rfl, toText_paragraph_amended.1 id id (fun _ => none) rfl⟩

/-! ## The HTML-path timestamp highlighter -/

/-- Word character for `\b` boundaries: `[A-Za-z0-9_]`. -/
def isWordChar (c : Char) : Bool :=
  isDigitCh c || ('a' ≤ c.toLower && c.toLower ≤ 'z') || c == '_'

/-- Greedy core of the timestamp regex `\d{1,2}:\d{2}(?::\d{2})?` after the
hour digits `hh`: minutes, then optional seconds. -/
def tsCore (hh : List Char) (rest : List Char) : Option (List Char × List Char) :=
  match rest with
  | ':' :: m1 :: m2 :: r =>
    if isDigitCh m1 && isDigitCh m2 then
      match r with
      | ':' :: s1 :: s2 :: r2 =>
        if isDigitCh s1 && isDigitCh s2 then
          some (hh ++ [':', m1, m2, ':', s1, s2], r2)
        else some (hh ++ [':', m1, m2], r)
      | _ => some (hh ++ [':', m1, m2], r)
    else none
  | _ => none

/-- The HTML-path timestamp pattern `/(\d{1,2}:\d{2}(?::\d{2})?)/`: greedy
two-digit hour first, backtracking to one digit. -/
def tsMatch (l : List Char) : Option (List Char × List Char) :=
  match l with
  | c1 :: c2 :: r =>
    if isDigitCh c1 && isDigitCh c2 then
      match tsCore [c1, c2] r with
      | some x => some x
      | none => tsCore [c1] (c2 :: r)
    else if isDigitCh c1 then tsCore [c1] (c2 :: r)
    else none
  | _ => none

/-- The `<button>` marker the highlighter wraps a timestamp in. -/
def tsButton (time : List Char) : List Char :=
  ("<button class=\"timestamp\" type=\"button\" data-timestamp=\"").data ++ time
    ++ ("\">").data ++ time ++ ("</button>").data

/-- The inner replacement of plain-text segments (podcast.js lines
306–312): each timestamp-shaped substring is wrapped in a marker (the
match, being digits and colons, survives its own trim). -/
def replaceTimestampsHtml (seg : List Char) : List Char :=
  scanReplace
    (fun l =>
      (tsMatch l).map (fun m =>
        let trimmed := jsTrimL m.1
        (if trimmed.isEmpty then m.1 else tsButton trimmed, m.2)))
    (seg.length + 1) seg

/-- Split on `/(<[^>]+>)/g` keeping the captured tags and the (possibly
empty) texts between them, exactly like `String.prototype.split` with a
capture group. -/
def splitTags : Nat → List Char → List Char → List (List Char)
  | 0, acc, l => [acc.reverse ++ l]
  | _ + 1, acc, [] => [acc.reverse]
  | fuel + 1, acc, c :: t =>
    if c = '<' then
      let content := t.takeWhile (fun x => !(x == '>'))
      if content.isEmpty then splitTags fuel (c :: acc) t
      else
        match t.drop content.length with
        | '>' :: rest =>
          acc.reverse :: ('<' :: (content ++ ['>'])) :: splitTags fuel [] rest
        | _ => splitTags fuel (c :: acc) t
    else splitTags fuel (c :: acc) t

/-- `/^<\s*\/\s*([a-z0-9:-]+)/i`: a closing tag. -/
def isClosingTag (tag : List Char) : Bool :=
  match (dropChar '<' tag).map skipWs with
  | some r =>
    match (dropChar '/' r).map skipWs with
    | some (c :: _) =>
      isDigitCh c || ('a' ≤ c.toLower && c.toLower ≤ 'z') || c == ':' || c == '-'
    | _ => false
  | none => false

/-- `/\/\s*>$/`: ends in a slash (modulo whitespace) before the final
`>`. -/
def endsSlashGt (tag : List Char) : Bool :=
  match tag.reverse with
  | '>' :: r =>
    match r.dropWhile isJsSpace with
    | '/' :: _ => true
    | _ => false
  | _ => false

/-- `/^<\s*(br|hr)\b/i`. -/
def startsBrHr (tag : List Char) : Bool :=
  match (dropChar '<' tag).map skipWs with
  | some r =>
    (prefixCI ['b', 'r'] r || prefixCI ['h', 'r'] r) &&
      (match r.drop 2 with
       | [] => true
       | c :: _ => !isWordChar c)
  | none => false

/-- `isSelfClosing` (podcast.js line 269). -/
def isSelfClosingTag (tag : List Char) : Bool :=
  endsSlashGt tag || startsBrHr tag

/-- `\b` before a word character: the previous character (if any) is not a
word character. -/
def boundaryOk (prev : Option Char) : Bool :=
  match prev with
  | none => true
  | some c => !isWordChar c

/-- Search for `\btimestamp\b` (case-insensitively) inside a quote-free
attribute span. -/
def spanHasTimestampWord : Nat → Option Char → List Char → Bool
  | 0, _, _ => false
  | fuel + 1, prev, l =>
    (boundaryOk prev && prefixCI ("timestamp").data l &&
      (match l.drop 9 with
       | [] => true
       | c :: _ => !isWordChar c)) ||
    (match l with
     | [] => false
     | c :: t => spanHasTimestampWord fuel (some c) t)

/-- One candidate position for
`\bclass\s*=\s*["'][^"']*\btimestamp\b[^"']*["']`. -/
def classAttrAt (prev : Option Char) (l : List Char) : Bool :=
  boundaryOk prev &&
    (match dropPrefixCI ("class").data l with
     | some r =>
       (match (dropChar '=' (skipWs r)).map skipWs with
        | some (q :: body) =>
          (q == '"' || q == '\'') &&
            (let span := body.takeWhile (fun c => !(c == '"') && !(c == '\''))
             (match body.drop span.length with
              | _ :: _ => spanHasTimestampWord (span.length + 1) none span
              | [] => false))
        | _ => false)
     | none => false)

/-- Search the whole tag for the class pattern. -/
def hasClassTimestamp : Nat → Option Char → List Char → Bool
  | 0, _, _ => false
  | fuel + 1, prev, l =>
    classAttrAt prev l ||
    (match l with
     | [] => false
     | c :: t => hasClassTimestamp fuel (some c) t)

/-- One candidate position for `\bdata-timestamp\s*=`. -/
def dataTsAt (prev : Option Char) (l : List Char) : Bool :=
  boundaryOk prev &&
    (match dropPrefixCI ("data-timestamp").data l with
     | some r => (dropChar '=' (skipWs r)).isSome
     | none => false)

/-- Search the whole tag for the data-timestamp pattern. -/
def hasDataTimestamp : Nat → Option Char → List Char → Bool
  | 0, _, _ => false
  | fuel + 1, prev, l =>
    dataTsAt prev l ||
    (match l with
     | [] => false
     | c :: t => hasDataTimestamp fuel (some c) t)

/-- `isTimestampTag` (podcast.js lines 270–275). -/
def isTimestampTag (tag : List Char) : Bool :=
  hasClassTimestamp (tag.length + 1) none tag ||
    hasDataTimestamp (tag.length + 1) none tag

/-- The stateful `.map` over the split segments (podcast.js lines
277–314): tags maintain the open/close stack and the timestamp depth;
plain-text segments are rewritten only outside existing timestamp
markers. -/
def htmlSegMap : List (List Char) → List Bool → Nat → List Char
  | [], _, _ => []
  | seg :: rest, stack, depth =>
    match seg with
    | [] => htmlSegMap rest stack depth
    | c :: _ =>
      if c = '<' then
        if isClosingTag seg then
          match stack with
          | [] => seg ++ htmlSegMap rest [] depth
          | last :: stackTail =>
            seg ++ htmlSegMap rest stackTail (if last then depth - 1 else depth)
        else if isSelfClosingTag seg then
          seg ++ htmlSegMap rest stack depth
        else
          let isTs := isTimestampTag seg
          seg ++ htmlSegMap rest (isTs :: stack) (if isTs then depth + 1 else depth)
      else
        if 0 < depth then seg ++ htmlSegMap rest stack depth
        else replaceTimestampsHtml seg ++ htmlSegMap rest stack depth

/-- Embedding of `highlightTimestampsInHtml` (podcast.js lines 262–315). -/
def highlightTimestampsInHtml (html : String) : String :=
  if html = "" then ""
  else ⟨htmlSegMap (splitTags (html.data.length + 1) [] html.data) [] 0⟩


/-! ## Claim C8: timestamp highlighting behaviour -/

/-- C8 (amended): on well-formed markup the highlighter wraps the
timestamp exactly once in a marker carrying the matched text as data
attribute, a second application leaves the output fixed, text already
inside an existing timestamp marker is untouched, and self-closing tags
are not altered (shown with the `<br/>` example, where only the plain
text is rewritten and a second application is again the identity).
Idempotence holds only on such outputs, not universally: see the
counterexample below. -/
theorem highlightTimestamps_spec :
    highlightTimestampsInHtml "Check 12:34 now" =
      "Check <button class=\"timestamp\" type=\"button\" data-timestamp=\"12:34\">12:34</button> now" ∧
    highlightTimestampsInHtml (highlightTimestampsInHtml "Check 12:34 now") =
      highlightTimestampsInHtml "Check 12:34 now" ∧
    highlightTimestampsInHtml
        "<button class=\"timestamp\" type=\"button\" data-timestamp=\"9:59\">9:59</button>" =
      "<button class=\"timestamp\" type=\"button\" data-timestamp=\"9:59\">9:59</button>" ∧
    highlightTimestampsInHtml "<p>a 1:23</p><br/>" =
      "<p>a <button class=\"timestamp\" type=\"button\" data-timestamp=\"1:23\">1:23</button></p><br/>" ∧
    highlightTimestampsInHtml (highlightTimestampsInHtml "<p>a 1:23</p><br/>") =
      highlightTimestampsInHtml "<p>a 1:23</p><br/>" :=
  ⟨by decide, by decide, by decide, by decide, by decide⟩

/-- C8 (counterexample): the highlighter is not idempotent on its own
output.  On `a </x 1:23` the first application wraps `1:23` once, but
the splitter of the second application merges the stray closing tag
`</x ` with the inserted button open tag into one pseudo-tag; the
closing-tag regex classifies that pseudo-tag as a close (popping an
empty stack, leaving depth 0), so the already-wrapped `1:23` sits in a
plain-text segment again and is wrapped a second time. -/
theorem highlightTimestamps_idempotence_counterexample :
    highlightTimestampsInHtml "a </x 1:23" =
      "a </x <button class=\"timestamp\" type=\"button\" data-timestamp=\"1:23\">1:23</button>" ∧
    highlightTimestampsInHtml (highlightTimestampsInHtml "a </x 1:23") ≠
      highlightTimestampsInHtml "a </x 1:23" :=
  ⟨by decide, by decide⟩



/-! ## SHA-256 (the `createHash("sha256").update(...).digest("hex")` of the
Identity Hasher), implemented over byte lists. -/

/-- Truncate to 32 bits. -/
def w32 (n : Nat) : Nat := n % 4294967296

/-- 32-bit right rotation. -/
def rotr32 (x n : Nat) : Nat := w32 ((x >>> n) + ((x <<< (32 - n)) % 4294967296))

/-- Bitwise complement on 32 bits. -/
def not32 (x : Nat) : Nat := 4294967295 - x

def smallSigma0 (x : Nat) : Nat := (rotr32 x 7) ^^^ (rotr32 x 18) ^^^ (x >>> 3)

def smallSigma1 (x : Nat) : Nat := (rotr32 x 17) ^^^ (rotr32 x 19) ^^^ (x >>> 10)

def bigSigma0 (x : Nat) : Nat := (rotr32 x 2) ^^^ (rotr32 x 13) ^^^ (rotr32 x 22)

def bigSigma1 (x : Nat) : Nat := (rotr32 x 6) ^^^ (rotr32 x 11) ^^^ (rotr32 x 25)

/-- The SHA-256 round constants. -/
def sha256K : List Nat :=
  [1116352408, 1899447441, 3049323471, 3921009573, 961987163, 1508970993, 2453635748, 2870763221,
   3624381080, 310598401, 607225278, 1426881987, 1925078388, 2162078206, 2614888103, 3248222580,
   3835390401, 4022224774, 264347078, 604807628, 770255983, 1249150122, 1555081692, 1996064986,
   2554220882, 2821834349, 2952996808, 3210313671, 3336571891, 3584528711, 113926993, 338241895,
   666307205, 773529912, 1294757372, 1396182291, 1695183700, 1986661051, 2177026350, 2456956037,
   2730485921, 2820302411, 3259730800, 3345764771, 3516065817, 3600352804, 4094571909, 275423344,
   430227734, 506948616, 659060556, 883997877, 958139571, 1322822218, 1537002063, 1747873779,
   1955562222, 2024104815, 2227730452, 2361852424, 2428436474, 2756734187, 3204031479, 3329325298]

/-- Working state of the compression function. -/
structure Sha256State where
  a : Nat
  b : Nat
  c : Nat
  d : Nat
  e : Nat
  f : Nat
  g : Nat
  h : Nat

/-- The SHA-256 initial hash value. -/
def sha256H0 : Sha256State :=
  ⟨1779033703, 3144134277, 1013904242, 2773480762, 1359893119, 2600822924, 528734635, 1541459225⟩

/-- 64-bit big-endian length encoding. -/
def be64 (n : Nat) : List Nat :=
  [n / 72057594037927936 % 256, n / 281474976710656 % 256, n / 1099511627776 % 256,
   n / 4294967296 % 256, n / 16777216 % 256, n / 65536 % 256, n / 256 % 256, n % 256]

/-- Merkle–Damgård padding: 0x80, zeros to 56 mod 64, 64-bit bit length. -/
def sha256pad (msg : List Nat) : List Nat :=
  msg ++ 128 :: List.replicate ((119 - msg.length % 64) % 64) 0 ++ be64 (msg.length * 8)

/-- Split into 64-byte chunks; fuel-structural. -/
def chunks64 : Nat → List Nat → List (List Nat)
  | 0, _ => []
  | _ + 1, [] => []
  | fuel + 1, l => l.take 64 :: chunks64 fuel (l.drop 64)

/-- Big-endian 32-bit words from bytes. -/
def bytesToWords : List Nat → List Nat
  | b0 :: b1 :: b2 :: b3 :: rest => (((b0 * 256 + b1) * 256 + b2) * 256 + b3) :: bytesToWords rest
  | _ => []

/-- Message-schedule extension: `acc` holds the words produced so far, most
recent first. -/
def extendLoop : Nat → List Nat → List Nat
  | 0, acc => acc
  | k + 1, acc =>
    let wNew := w32 (smallSigma1 (acc.getD 1 0) + acc.getD 6 0 +
      smallSigma0 (acc.getD 14 0) + acc.getD 15 0)
    extendLoop k (wNew :: acc)

/-- The 64-word message schedule of one chunk. -/
def schedule (chunkBytes : List Nat) : List Nat :=
  (extendLoop 48 (bytesToWords chunkBytes).reverse).reverse

/-- One compression round. -/
def compressStep (st : Sha256State) (kw : Nat × Nat) : Sha256State :=
  let ch := (st.e &&& st.f) ^^^ (not32 st.e &&& st.g)
  let maj := (st.a &&& st.b) ^^^ (st.a &&& st.c) ^^^ (st.b &&& st.c)
  let t1 := w32 (st.h + bigSigma1 st.e + ch + kw.1 + kw.2)
  let t2 := w32 (bigSigma0 st.a + maj)
  ⟨w32 (t1 + t2), st.a, st.b, st.c, w32 (st.d + t1), st.e, st.f, st.g⟩

/-- Compress one 64-byte chunk into the running hash. -/
def compressChunk (H : Sha256State) (chunkBytes : List Nat) : Sha256State :=
  let final := (sha256K.zip (schedule chunkBytes)).foldl compressStep H
  ⟨w32 (H.a + final.a), w32 (H.b + final.b), w32 (H.c + final.c), w32 (H.d + final.d),
   w32 (H.e + final.e), w32 (H.f + final.f), w32 (H.g + final.g), w32 (H.h + final.h)⟩

/-- SHA-256 of a byte list. -/
def sha256Bytes (msg : List Nat) : Sha256State :=
  let padded := sha256pad msg
  (chunks64 (padded.length + 1) padded).foldl compressChunk sha256H0

/-- Lowercase hex digit. -/
def hexDigitCh (n : Nat) : Char :=
  if n < 10 then Char.ofNat (48 + n) else Char.ofNat (87 + n)

/-- Eight lowercase hex digits of a 32-bit word. -/
def toHex8 (x : Nat) : List Char :=
  [hexDigitCh (x / 268435456 % 16), hexDigitCh (x / 16777216 % 16),
   hexDigitCh (x / 1048576 % 16), hexDigitCh (x / 65536 % 16),
   hexDigitCh (x / 4096 % 16), hexDigitCh (x / 256 % 16),
   hexDigitCh (x / 16 % 16), hexDigitCh (x % 16)]

/-- UTF-8 encoding of one character. -/
def utf8Encode (c : Char) : List Nat :=
  let n := c.toNat
  if n < 128 then [n]
  else if n < 2048 then [192 + n / 64, 128 + n % 64]
  else if n < 65536 then [224 + n / 4096, 128 + n / 64 % 64, 128 + n % 64]
  else [240 + n / 262144, 128 + n / 4096 % 64, 128 + n / 64 % 64, 128 + n % 64]

/-- `createHash("sha256").update(s).digest("hex")`: hex digest of the
UTF-8 bytes of `s`. -/
def sha256hex (s : String) : String :=
  let st := sha256Bytes ((s.data.map utf8Encode).flatten)
  ⟨toHex8 st.a ++ toHex8 st.b ++ toHex8 st.c ++ toHex8 st.d ++
   toHex8 st.e ++ toHex8 st.f ++ toHex8 st.g ++ toHex8 st.h⟩


/-! ## Claim C6: the Identity Hasher -/

/-- The object passed to `buildEpisodeId` at its call site (podcast.js
lines 764–773): string-like candidate fields plus the raw title and the
parsed publish timestamp (a JS number or null). -/
structure EpisodeIdSource where
  guid : JVal
  id : JVal
  uid : JVal
  audio : JVal
  url : JVal
  link : JVal
  title : JVal
  publishedAt : JVal

/-- JS template interpolation `${v || ""}`. -/
def jsTemplateOrEmpty (v : JVal) : String := jvToStr (jor v (.str ""))

/-- Embedding of `buildEpisodeId` (podcast.js lines 64–75): the first
truthy candidate of guid, id, uid, audio, url, link, falling back to the
composite `title-publishedAt-audio` string, is stringified and hashed with
hex-encoded SHA-256. -/
def buildEpisodeId (episode : EpisodeIdSource) : String :=
  let fallbackSource := jsTemplateOrEmpty episode.title ++ "-" ++
    jsTemplateOrEmpty episode.publishedAt ++ "-" ++ jsTemplateOrEmpty episode.audio
  let source :=
    jor episode.guid (jor episode.id (jor episode.uid (jor episode.audio
      (jor episode.url (jor episode.link (.str fallbackSource))))))
  sha256hex (jvToStr source)

/-- First-truthy selection over string candidates is `find?` of the first
non-empty string. -/
lemma jor_str (x : String) (v : JVal) : jor (.str x) v = if x = "" then v else .str x := by
  by_cases hx : x = "" <;> simp [jor, truthy, hx]

lemma firstTruthyStr (cands : List String) (fb : String) :
    (cands.foldr (fun c acc => jor (.str c) acc) (.str fb)) =
      .str ((cands.find? (fun s => !(s == ""))).getD fb) := by
  induction cands with
  | nil => rfl
  | cons c t ih =>
    by_cases hc : c = ""
    · have hpc : (fun s => !(s == "")) c = false := by simp [hc]
      rw [List.foldr_cons, ih, jor_str, if_pos hc]
      simp only [List.find?, hpc]
    · have hpc : (fun s => !(s == "")) c = true := by simp [hc]
      rw [List.foldr_cons, jor_str, if_neg hc]
      simp only [List.find?, hpc, Option.getD_some]

/-- C6: with the call site's string-valued candidates (where `url` and
`link` both carry the resolved link), the episode id is the hex-encoded
SHA-256 digest of the first non-empty candidate in the priority order
guid, id, uid, audio URL, resolved link URL, and finally the composite
`title-publishedAt-audio` fallback; the digest always has the fixed output
length 64, and the function is pure, so byte-identical inputs give
identical ids by construction. -/
theorem buildEpisodeId_spec :
    (∀ (g i u a l t : String) (pub : JVal),
      buildEpisodeId ⟨.str g, .str i, .str u, .str a, .str l, .str l, .str t, pub⟩ =
        sha256hex (([g, i, u, a, l, l].find? (fun s => !(s == ""))).getD
          (t ++ "-" ++ jsTemplateOrEmpty pub ++ "-" ++ a))) ∧
    (∀ s : String, (sha256hex s).length = 64) := by
  constructor
  · intro g i u a l t pub
    have hT : jsTemplateOrEmpty (.str t) = t := by
      by_cases ht : t = "" <;> simp [jsTemplateOrEmpty, jor, truthy, jvToStr, ht]
    have hA : jsTemplateOrEmpty (.str a) = a := by
      by_cases ht : a = "" <;> simp [jsTemplateOrEmpty, jor, truthy, jvToStr, ht]
    show sha256hex (jvToStr
        ([g, i, u, a, l, l].foldr (fun c acc => jor (.str c) acc)
          (.str (jsTemplateOrEmpty (.str t) ++ "-" ++ jsTemplateOrEmpty pub ++ "-" ++
            jsTemplateOrEmpty (.str a))))) = _
    rw [firstTruthyStr, hT, hA]
    simp [jvToStr]
  · intro s
    show (⟨_⟩ : String).length = 64
    simp only [String.length, sha256hex]
    simp [toHex8, List.length_append]




/-! ## Remaining content-normalizer pieces -/

/-- JS `a || b` on strings (used where both operands are strings). -/
def jsOrStr (a b : String) : String := if a = "" then b else a

/-- Embedding of `toEnclosure` (podcast.js lines 718–724): arrays take
their first element (or `{}`), falsy values become `{}`. -/
def toEnclosure (enclosure : JVal) : JVal :=
  if truthy enclosure = false then .obj []
  else
    match enclosure with
    | .arr elems => jor (elems.headD .undef) (.obj [])
    | v => v

/-- String-typed field test (`typeof v === "string"`). -/
def isStrVal : JVal → Bool
  | .str _ => true
  | _ => false

/-- Embedding of `toLink` (podcast.js lines 418–440): falsy values give "",
strings are entity-decoded and trimmed, arrays recurse into their first
element, objects try `@_href`, `url`, then `#text` (each only when the
field is a string), and everything else gives "". -/
def toLink (ext : ExtLib) (value : JVal) : String :=
  if truthy value = false then ""
  else
    match value with
    | .str s => jsTrim (decodeHtml ext (.str s))
    | .arr [] => ""
    | .arr (x :: _) => toLink ext x
    | .obj fields =>
      if isStrVal (jgetFields fields "@_href") then
        jsTrim (decodeHtml ext (jgetFields fields "@_href"))
      else if isStrVal (jgetFields fields "url") then
        jsTrim (decodeHtml ext (jgetFields fields "url"))
      else if isStrVal (jgetFields fields "#text") then
        jsTrim (decodeHtml ext (jgetFields fields "#text"))
      else ""
    | _ => ""

/-- CJK character test (`[一-龥]`). -/
def isCJK (c : Char) : Bool := 0x4e00 ≤ c.toNat && c.toNat ≤ 0x9fa5

/-- ASCII alphanumeric test (`[A-Za-z0-9]`). -/
def isAlnum (c : Char) : Bool :=
  isDigitCh c || ('a' ≤ c.toLower && c.toLower ≤ 'z')

/-- Embedding of `addReadableSpacing` (podcast.js lines 87–92) on the
string its call site passes: a space is inserted between a CJK character
and a following ASCII alphanumeric, then between an alphanumeric and a
following CJK character; each regex consumes both characters of a
match. -/
def addReadableSpacing (s : String) : String :=
  let pass1 := scanReplace
    (fun l =>
      match l with
      | c1 :: c2 :: rest =>
        if isCJK c1 && isAlnum c2 then some ([c1, ' ', c2], rest) else none
      | _ => none)
    (s.data.length + 1) s.data
  ⟨scanReplace
    (fun l =>
      match l with
      | c1 :: c2 :: rest =>
        if isAlnum c1 && isCJK c2 then some ([c1, ' ', c2], rest) else none
      | _ => none)
    (pass1.length + 1) pass1⟩

/-- Embedding of `escapeHtml` (podcast.js lines 77–85).  The source runs
five sequential replaces (`& < > " '`); since no replacement string
contains a character that a later pass rewrites, this equals a single
character map. -/
def escapeHtml (s : String) : String :=
  ⟨(s.data.map (fun c =>
    if c = '&' then ("&amp;").data
    else if c = '<' then ("&lt;").data
    else if c = '>' then ("&gt;").data
    else if c = '"' then ("&quot;").data
    else if c = '\'' then ("&#39;").data
    else [c])).flatten⟩

/-- First index of a substring. -/
def indexOfSub (sub : List Char) : List Char → Option Nat
  | [] => none
  | l@(_ :: t) => if sub.isPrefixOf l then some 0 else (indexOfSub sub t).map (· + 1)

/-- `depth` closing tags. -/
def closersRep (tagClose : List Char) (depth : Nat) : List Char :=
  (List.replicate depth tagClose).flatten

/-- The per-token while loop of `applyFormattingTokens` (podcast.js lines
215–251): at each step the earlier of the next open/close token is
consumed; opens emit `<tag>` and raise the depth, closes emit `</tag>`
only at positive depth; leftover depth is closed at the end.  Each
iteration consumes at least the token length, so `fuel = length + 1`
suffices. -/
def applyTokenLoop (openT closeT tagOpen tagClose : List Char) :
    Nat → List Char → Nat → List Char
  | _, [], depth => closersRep tagClose depth
  | 0, remaining, depth => remaining ++ closersRep tagClose depth
  | fuel + 1, remaining, depth =>
    match indexOfSub openT remaining, indexOfSub closeT remaining with
    | none, none => remaining ++ closersRep tagClose depth
    | oi, ci =>
      let useOpen := oi.isSome && (ci.isNone || oi.getD 0 < ci.getD 0)
      let tokenIndex := if useOpen then oi.getD 0 else ci.getD 0
      let tokenLength := if useOpen then openT.length else closeT.length
      remaining.take tokenIndex ++
        (if useOpen then tagOpen else if 0 < depth then tagClose else []) ++
        applyTokenLoop openT closeT tagOpen tagClose fuel
          (remaining.drop (tokenIndex + tokenLength))
          (if useOpen then depth + 1 else if 0 < depth then depth - 1 else depth)

/-- Embedding of `applyFormattingTokens` (podcast.js lines 204–254): the
strong pass, then the em pass. -/
def applyFormattingTokens (input : String) : String :=
  if input = "" then ""
  else
    let afterStrong := applyTokenLoop ("__STRONG_OPEN__").data ("__STRONG_CLOSE__").data
      ("<strong>").data ("</strong>").data (input.data.length + 1) input.data 0
    ⟨applyTokenLoop ("__EM_OPEN__").data ("__EM_CLOSE__").data
      ("<em>").data ("</em>").data (afterStrong.length + 1) afterStrong 0⟩

/-- `(?![0-9:])`: the next character is neither a digit nor a colon. -/
def tsLookaheadOk : List Char → Bool
  | [] => true
  | c :: _ => !(isDigitCh c) && !(c == ':')

/-- Core of the anchored timestamp pattern with trailing lookahead:
minutes, then greedily optional seconds, backtracking when the lookahead
fails. -/
def tsCoreLA (hh : List Char) (rest : List Char) : Option (List Char × List Char) :=
  match rest with
  | ':' :: m1 :: m2 :: r =>
    if isDigitCh m1 && isDigitCh m2 then
      match r with
      | ':' :: s1 :: s2 :: r2 =>
        if isDigitCh s1 && isDigitCh s2 && tsLookaheadOk r2 then
          some (hh ++ [':', m1, m2, ':', s1, s2], r2)
        else if tsLookaheadOk r then some (hh ++ [':', m1, m2], r) else none
      | _ => if tsLookaheadOk r then some (hh ++ [':', m1, m2], r) else none
    else none
  | _ => none

/-- `\d{1,2}:\d{2}(?::\d{2})?(?![0-9:])`: greedy hour with backtracking. -/
def tsMatchLA (l : List Char) : Option (List Char × List Char) :=
  match l with
  | c1 :: c2 :: r =>
    if isDigitCh c1 && isDigitCh c2 then
      match tsCoreLA [c1, c2] r with
      | some x => some x
      | none => tsCoreLA [c1] (c2 :: r)
    else if isDigitCh c1 then tsCoreLA [c1] (c2 :: r)
    else none
  | _ => none

/-- The scan of `highlightTimestampsInPlainText` (podcast.js lines
256–260): the pattern `(^|[^0-9])(\d{1,2}:\d{2}(?::\d{2})?)(?![0-9:])`
matches at the string start or after a non-digit prefix character (which
is kept); each match is replaced by the prefix and the wrapped
timestamp, and scanning resumes after the match. -/
def hltPlainGo : Nat → Bool → List Char → List Char
  | 0, _, l => l
  | _ + 1, _, [] => []
  | fuel + 1, atStart, c :: t =>
    match (if atStart then tsMatchLA (c :: t) else none) with
    | some (time, rest) => tsButton time ++ hltPlainGo fuel false rest
    | none =>
      match (if !(isDigitCh c) then tsMatchLA t else none) with
      | some (time, rest) => c :: (tsButton time ++ hltPlainGo fuel false rest)
      | none => c :: hltPlainGo fuel false t

/-- Embedding of `highlightTimestampsInPlainText`. -/
def highlightTimestampsInPlainText (html : String) : String :=
  ⟨hltPlainGo (html.data.length + 1) true html.data⟩

/-- Split on `/\n{2,}/` (no capture: separators are dropped). -/
def splitBlankLines : Nat → List Char → List Char → List (List Char)
  | 0, acc, l => [acc.reverse ++ l]
  | _ + 1, acc, [] => [acc.reverse]
  | fuel + 1, acc, c :: t =>
    if c = '\n' then
      let nl := (c :: t).takeWhile (fun x => x == '\n')
      if 2 ≤ nl.length then
        acc.reverse :: splitBlankLines fuel [] ((c :: t).drop nl.length)
      else splitBlankLines fuel (c :: acc) t
    else splitBlankLines fuel (c :: acc) t

/-- `/\n/g → "<br />"`. -/
def replaceNlWithBr (l : List Char) : List Char :=
  (l.map (fun c => if c = '\n' then ("<br />").data else [c])).flatten

/-- `wrapParagraph` (podcast.js lines 329–332). -/
def wrapParagraph (esc : String → String) (paragraph : List Char) : String :=
  let safe := replaceNlWithBr (esc ⟨paragraph⟩).data
  "<p>" ++ highlightTimestampsInPlainText (applyFormattingTokens ⟨safe⟩) ++ "</p>"

/-- The blockquote-buffering fold of `buildHtmlFromPlainText` (podcast.js
lines 334–373), with the trailing flush folded in. -/
def bqFold (esc : String → String) :
    List (List Char) → Bool → List String → List String → List String
  | [], inside, buffer, out =>
    if inside && !buffer.isEmpty then
      out ++ ["<blockquote>" ++ String.join buffer ++ "</blockquote>"]
    else out
  | p :: rest, inside, buffer, out =>
    if (⟨p⟩ : String) = BLOCKQUOTE_OPEN_TOKEN then
      if inside && !buffer.isEmpty then
        bqFold esc rest true []
          (out ++ ["<blockquote>" ++ String.join buffer ++ "</blockquote>"])
      else bqFold esc rest true buffer out
    else if (⟨p⟩ : String) = BLOCKQUOTE_CLOSE_TOKEN then
      if inside then
        if buffer.isEmpty then bqFold esc rest false [] out
        else bqFold esc rest false []
          (out ++ ["<blockquote>" ++ String.join buffer ++ "</blockquote>"])
      else bqFold esc rest inside buffer out
    else
      let wrapped := wrapParagraph esc p
      if inside then bqFold esc rest inside (buffer ++ [wrapped]) out
      else bqFold esc rest inside buffer (out ++ [wrapped])

/-- Embedding of `buildHtmlFromPlainText` (podcast.js lines 317–379). -/
def buildHtmlFromPlainText (text : String) (esc : String → String) : String :=
  if text = "" then ""
  else
    let paragraphs := ((splitBlankLines (text.data.length + 1) [] text.data).map
      jsTrimL).filter (fun p => !p.isEmpty)
    if paragraphs.isEmpty then ""
    else
      let htmlParagraphs := bqFold esc paragraphs false [] []
      if htmlParagraphs.isEmpty then ""
      else "<div class=\"episode-detail-description\">" ++ String.join htmlParagraphs ++ "</div>"

/-- Embedding of `buildEpisodeDescriptionHtml` (podcast.js lines 381–394),
at its call site where `html` and `fallbackText` are strings and a real
escape function is supplied. -/
def buildEpisodeDescriptionHtml (html fallbackText : String) (esc : String → String) : String :=
  let sanitizedHtml := if html = "" then "" else jsTrim html
  if sanitizedHtml ≠ "" then
    "<div class=\"episode-detail-description\">" ++
      highlightTimestampsInHtml sanitizedHtml ++ "</div>"
  else
    let safeFallback := if fallbackText = "" then "" else jsTrim fallbackText
    if safeFallback = "" then ""
    else buildHtmlFromPlainText safeFallback esc



/-- `<br(ci)\s*\/?>`: the br form used inside `cleanEmptyHtml`. -/
def matchBrStrict (l : List Char) : Option (List Char) :=
  ((dropChar '<' l).bind (dropPrefixCI ['b', 'r'])).bind fun r =>
    dropChar '>' (dropOpt '/' (skipWs r))

/-- Greedily consume `(?:\s|&nbsp;|<br\s*\/?>)*`.  The alternatives never
overlap a following `</`, so greedy consumption needs no backtracking. -/
def skipEmptyContent : Nat → List Char → List Char
  | 0, l => l
  | fuel + 1, l =>
    match l with
    | [] => []
    | c :: t =>
      if isJsSpace c then skipEmptyContent fuel t
      else if ("&nbsp;").data.isPrefixOf l then skipEmptyContent fuel (l.drop 6)
      else
        match matchBrStrict l with
        | some rest => skipEmptyContent fuel rest
        | none => l

/-- The tag names of the empty-tag pattern, in alternation order. -/
def emptyTagNames : List (List Char) :=
  [("span").data, ("p").data, ("div").data, ("section").data, ("article").data,
   ("strong").data, ("b").data, ("em").data, ("i").data, ("u").data,
   ("blockquote").data, ("code").data, ("pre").data, ("figure").data,
   ("figcaption").data]

/-- One alternative of the empty-tag pattern: `<name\b[^>]*>`, the
whitespace/nbsp/br filler, then the matching `</name>` (the `\1`
backreference, also case-insensitive). -/
def tryEmptyTagName (name : List Char) (l : List Char) : Option (List Char) :=
  ((dropChar '<' l).bind (dropPrefixCI name)).bind fun r =>
    (match r with
     | c :: _ => if isWordChar c then none else some r
     | [] => some r).bind fun r2 =>
      (dropUntilGt r2).bind fun r3 =>
        let r4 := skipEmptyContent (r3.length + 1) r3
        (((dropChar '<' r4).bind (dropChar '/')).bind (dropPrefixCI name)).bind (dropChar '>')

/-- The empty-tag pattern (podcast.js lines 408–409), trying the
alternation in order with backtracking across alternatives. -/
def matchEmptyTag : List (List Char) → List Char → Option (List Char)
  | [], _ => none
  | name :: names, l =>
    match tryEmptyTagName name l with
    | some rest => some rest
    | none => matchEmptyTag names l

/-- One `output.replace(emptyTagPattern, "")` pass. -/
def replaceEmptyOnce (l : List Char) : List Char :=
  replaceAll (matchEmptyTag emptyTagNames) [] l

/-- The do/while of `cleanEmptyHtml` (lines 410–414): iterate the
replacement until a fixpoint.  Every non-fixpoint pass removes at least
one nonempty match, strictly shortening the text, so `length + 1` passes
always reach the fixpoint. -/
def cleanLoop : Nat → List Char → List Char
  | 0, l => l
  | fuel + 1, l =>
    let out := replaceEmptyOnce l
    if out = l then out else cleanLoop fuel out

/-- Count `{2,}` repetitions of `(?:<br\s*\/?>\s*)`. -/
def brRunCount : Nat → List Char → Nat × List Char
  | 0, l => (0, l)
  | fuel + 1, l =>
    match matchBrStrict l with
    | some r =>
      let next := brRunCount fuel (skipWs r)
      (next.1 + 1, next.2)
    | none => (0, l)

/-- `/(?:<br\s*\/?>\s*){2,}/gi → "<br />"`. -/
def matchBrRun (l : List Char) : Option (List Char) :=
  let c := brRunCount (l.length + 1) l
  if 2 ≤ c.1 then some c.2 else none

/-- Embedding of `cleanEmptyHtml` (podcast.js lines 405–416). -/
def cleanEmptyHtml (html : String) : String :=
  if html = "" then ""
  else
    let cleaned := cleanLoop (html.data.length + 1) html.data
    jsTrim ⟨replaceAll matchBrRun ("<br />").data cleaned⟩

/-- Embedding of `toRichHtml` (podcast.js lines 396–403): entity-decode,
sanitize (the external sanitize-html with the fixed options), strip empty
tags and trim. -/
def toRichHtml (ext : ExtLib) (value : JVal) : String :=
  let decoded := decodeHtml ext value
  if decoded = "" then ""
  else jsTrim (cleanEmptyHtml (ext.sanitize decoded))

/-- Embedding of `parseTimestamp` (podcast.js lines 54–62): falsy values
give null, otherwise `new Date(value).getTime()` with NaN mapped to
null (the external `dateParse`). -/
def parseTimestamp (ext : ExtLib) (value : JVal) : Option Int :=
  if truthy value = false then none else ext.dateParse value

/-- Embedding of `ensureArray` (podcast.js lines 31–34). -/
def ensureArray (value : JVal) : List JVal :=
  if truthy value = false then []
  else
    match value with
    | .arr elems => elems
    | v => [v]

/-- Embedding of `getChannelInfo` (podcast.js line 649). -/
def getChannelInfo (rssData : JVal) : JVal :=
  jor (jget (jget rssData "rss") "channel") (.obj [])

/-- The channel-level author fallback chain (podcast.js lines 706–710). -/
def channelFallbackAuthor (channel : JVal) : JVal :=
  jor (jget channel "itunes:author")
    (jor (jget channel "author")
      (jor (jget channel "managingEditor") (.str "")))

/-- The channel-level image fallback chain (podcast.js lines 712–716). -/
def channelFallbackImage (channel : JVal) : JVal :=
  jor (jget (jget channel "itunes:image") "@_href")
    (jor (jget (jget channel "image") "url")
      (jor (jget channel "itunes:image") (.str "")))

/-- The Episode entity of the paginated endpoint (podcast.js lines
774–792): `id` plus the payload fields. -/
structure Episode where
  id : String
  title : JVal
  author : JVal
  publishedAt : Option Int
  duration : JVal
  audio : JVal
  image : JVal
  description_html : String
  description_text : String
  url : String
  link : String
  guid : String

/-- The per-item body of the `pageItems.map` in `extractEpisodesPage`
(podcast.js lines 728–792), with `absIdx = start + index` the absolute
item position. -/
def episodeOf (ext : ExtLib) (fallbackAuthor fallbackImage : JVal)
    (absIdx : Nat) (item : JVal) : Episode :=
  let enclosure := toEnclosure (jget item "enclosure")
  let rawDescription := jor (jget item "content:encoded")
    (jor (jget item "description") (.str ""))
  let descriptionHtml := toRichHtml ext rawDescription
  let image := jor (jget (jget item "itunes:image") "@_href")
    (jor (jget (jget item "image") "url")
      (jor (jget item "itunes:image") fallbackImage))
  let author := jor (jget item "itunes:author")
    (jor (jget item "author")
      (jor (jget item "creator") fallbackAuthor))
  let episodeLink := jsOrStr (toLink ext (jget item "link"))
    (jsOrStr (toLink ext (jget item "guid"))
      (jsOrStr (toLink ext (jget item "feedburner:origLink"))
        (jsOrStr (toLink ext (jget enclosure "url")) "")))
  let fallbackDescriptionText :=
    jsTrim (addReadableSpacing (convertHtmlToPlainText rawDescription))
  let descriptionWithTimestamps :=
    buildEpisodeDescriptionHtml descriptionHtml fallbackDescriptionText escapeHtml
  let publishedAt := parseTimestamp ext
    (jor (jget item "pubDate") (jor (jget item "dc:date") (.str "")))
  let title := jor (jget item "title") (.str ("Episode " ++ natToStr (absIdx + 1)))
  let rawGuid := jget item "guid"
  let rawId := jget item "id"
  let rawUid := jget item "uid"
  let strTrim : JVal → String := fun v =>
    match v with
    | .str s => jsTrim s
    | _ => ""
  let guidValue := jsOrStr (toLink ext rawGuid) (strTrim rawGuid)
  let idValue := jsOrStr (toLink ext rawId) (strTrim rawId)
  let uidValue := jsOrStr (toLink ext rawUid) (strTrim rawUid)
  let audioUrl := jor (jget enclosure "@_url") (jor (jget enclosure "url") (.str ""))
  let idSource : EpisodeIdSource :=
    { guid := .str guidValue, id := .str idValue, uid := .str uidValue,
      audio := audioUrl, url := .str episodeLink, link := .str episodeLink,
      title := title,
      publishedAt := match publishedAt with
        | none => .jnull
        | some ts => .num ts }
  { id := buildEpisodeId idSource
    title := title
    author := author
    publishedAt := publishedAt
    duration := jor (jget item "itunes:duration") (jor (jget item "duration") (.str ""))
    audio := jor (jget enclosure "@_url") (jor (jget enclosure "url") (.str ""))
    image := image
    description_html := descriptionWithTimestamps
    description_text := toText ext rawDescription
    url := episodeLink
    link := episodeLink
    guid := jsOrStr guidValue (jsOrStr idValue (jsOrStr uidValue "")) }

/-- `pageItems.map((item, index) => ...)` with its running index. -/
def mapWithIndex (f : Nat → JVal → Episode) : Nat → List JVal → List Episode
  | _, [] => []
  | n, item :: rest => f n item :: mapWithIndex f (n + 1) rest

/-- Result of `extractEpisodesPage`. -/
structure EpisodesPage where
  total : Nat
  episodes : List Episode

/-- Embedding of `extractEpisodesPage` (podcast.js lines 702–796):
`items.slice(start, start + limit)` is `take limit (drop start items)` for
the route's non-negative arguments, each page item is mapped with its
absolute position `start + index`, and `total` is the full item count. -/
def extractEpisodesPage (ext : ExtLib) (rssData : JVal) (start limit : Nat) :
    EpisodesPage :=
  let channel := getChannelInfo rssData
  let items := ensureArray (jget channel "item")
  let fallbackAuthor := channelFallbackAuthor channel
  let fallbackImage := channelFallbackImage channel
  let pageItems := (items.drop start).take limit
  let episodes := mapWithIndex
    (fun index item => episodeOf ext fallbackAuthor fallbackImage (start + index) item)
    0 pageItems
  ⟨items.length, episodes⟩


/-! ## Claim C5: pagination is a pure slice -/

lemma mapWithIndex_take (f : Nat → JVal → Episode) (l : List JVal) (n k : Nat) :
    mapWithIndex f n (l.take k) = (mapWithIndex f n l).take k := by
  induction l generalizing n k with
  | nil => simp [mapWithIndex]
  | cons a t ih =>
    cases k with
    | zero => simp [mapWithIndex]
    | succ k' => simp [mapWithIndex, List.take_succ_cons, ih]

lemma mapWithIndex_drop (f : Nat → JVal → Episode) (l : List JVal) (n s : Nat) :
    mapWithIndex f (n + s) (l.drop s) = (mapWithIndex f n l).drop s := by
  induction l generalizing n s with
  | nil => simp [mapWithIndex]
  | cons a t ih =>
    cases s with
    | zero => simp [mapWithIndex]
    | succ s' =>
      have h1 : n + (s' + 1) = (n + 1) + s' := by omega
      simp only [List.drop_succ_cons, h1, ih, mapWithIndex]

lemma mapWithIndex_shift (f : Nat → JVal → Episode) (l : List JVal) (s n : Nat) :
    mapWithIndex (fun i a => f (s + i) a) n l = mapWithIndex f (s + n) l := by
  induction l generalizing n with
  | nil => simp [mapWithIndex]
  | cons a t ih =>
    have h1 : s + (n + 1) = (s + n) + 1 := by omega
    simp only [mapWithIndex, ih, h1]

lemma mapWithIndex_length (f : Nat → JVal → Episode) (l : List JVal) (n : Nat) :
    (mapWithIndex f n l).length = l.length := by
  induction l generalizing n with
  | nil => rfl
  | cons a t ih => simp [mapWithIndex, ih]

/-- C5: `extractEpisodesPage` reports `total` as the length of the full
parsed item list, independent of `offset` and `limit`; its episode list is
exactly the `[offset, offset + limit)` slice of the fully-mapped item list
in feed order (each item mapped at its absolute position); and an offset
at or beyond `total` yields an empty episode list rather than an error. -/
theorem extractEpisodesPage_slice (ext : ExtLib) (rssData : JVal) (start limit : Nat) :
    (extractEpisodesPage ext rssData start limit).total =
      (ensureArray (jget (getChannelInfo rssData) "item")).length ∧
    (extractEpisodesPage ext rssData start limit).episodes =
      ((mapWithIndex
          (fun i item => episodeOf ext
            (channelFallbackAuthor (getChannelInfo rssData))
            (channelFallbackImage (getChannelInfo rssData)) i item)
          0 (ensureArray (jget (getChannelInfo rssData) "item"))).drop start).take limit ∧
    ((ensureArray (jget (getChannelInfo rssData) "item")).length ≤ start →
      (extractEpisodesPage ext rssData start limit).episodes = []) := by
  set items := ensureArray (jget (getChannelInfo rssData) "item") with hitems
  have hslice : (extractEpisodesPage ext rssData start limit).episodes =
      ((mapWithIndex
          (fun i item => episodeOf ext
            (channelFallbackAuthor (getChannelInfo rssData))
            (channelFallbackImage (getChannelInfo rssData)) i item)
          0 items).drop start).take limit := by
    show mapWithIndex
        (fun index item => episodeOf ext
          (channelFallbackAuthor (getChannelInfo rssData))
          (channelFallbackImage (getChannelInfo rssData)) (start + index) item)
        0 ((items.drop start).take limit) = _
    rw [mapWithIndex_take, mapWithIndex_shift]
    rw [show start + 0 = 0 + start from by omega]
    rw [mapWithIndex_drop]
  refine ⟨rfl, hslice, ?_⟩
  intro hle
  rw [hslice]
  rw [List.drop_eq_nil_of_le (by rw [mapWithIndex_length]; exact hle)]
  simp

/-- Trivial external library (identity decode/sanitize, unparseable
dates), used to instantiate the extraction theorems concretely. -/
def idExt : ExtLib :=
  { heDecode := fun s => s, sanitize := fun s => s, dateParse := fun _ => none }

/-- A two-item feed tree. -/
def wFeed : JVal :=
  .obj [("rss", .obj [("channel", .obj [("item",
    .arr [.obj [("title", .str "a")], .obj [("title", .str "b")]])])])]

/-- Witness for C5: on a concrete two-item feed, an offset of 5 is at or
beyond the total, and the episode list is empty. -/
theorem extractEpisodesPage_slice_witness :
    (ensureArray (jget (getChannelInfo wFeed) "item")).length ≤ 5 ∧
    (extractEpisodesPage idExt wFeed 5 10).episodes = [] :=
  ⟨by decide, (extractEpisodesPage_slice idExt wFeed 5 10).2.2 (by decide)⟩


/-! ## The route layer -/

/-- Pagination and cache constants (podcast.js lines 16–19). -/
def PER_PAGE : Nat := 10

/-- Upper bound of the `limit` query parameter. -/
def MAX_LIMIT : Nat := 50

/-- Channel endpoint cache lifetime (48 h). -/
def PODCAST_CACHE_SECONDS : Nat := 60 * 60 * 48

/-- Episodes endpoint cache lifetime (36 h). -/
def EPISODES_CACHE_SECONDS : Nat := 60 * 60 * 36

/-- The `Cache-Control` value of `disableCache`. -/
def noStoreHeader : String := "no-store"

/-- The `Cache-Control` value of `setCacheHeader`. -/
def cacheHeaderFor (seconds : Nat) : String :=
  "public, s-maxage=" ++ natToStr seconds ++ ", max-age=0"

/-- An Express query value: absent, null, a string, or an array of
values. -/
inductive QueryVal where
  | undef
  | qnull
  | str (s : String)
  | arr (elems : List QueryVal)

/-- Embedding of `isRefreshRequested` (podcast.js lines 38–44): absent
values are false, arrays recurse on their first element (an empty array
indexes to `undefined`), and a string bypasses the cache unless its
trimmed lower-cased form is empty or one of "0", "false", "no". -/
def isRefreshRequested : QueryVal → Bool
  | .undef => false
  | .qnull => false
  | .arr [] => false
  | .arr (x :: _) => isRefreshRequested x
  | .str s =>
    let normalized := jsToLower (jsTrim s)
    if normalized = "" then false
    else !(["0", "false", "no"].contains normalized)

/-- The claim's view of the refresh value: arrays resolved to their first
element (an empty array resolving to `undefined`). -/
def resolveQuery : QueryVal → QueryVal
  | .arr (x :: _) => resolveQuery x
  | .arr [] => .undef
  | v => v

/-- `safeCursor` (podcast.js lines 837–839): parse `cursor ?? "0"`, NaN or
negative values clamp to 0. -/
def safeCursor (cursor : Option String) : Nat :=
  match parseIntJS (cursor.getD "0") with
  | none => 0
  | some v => if v < 0 then 0 else v.toNat

/-- `safeLimit` (podcast.js lines 838–843): parse `limit ?? "10"`, NaN or
values below 1 default to `PER_PAGE`, larger values cap at `MAX_LIMIT`. -/
def safeLimit (limitQ : Option String) : Nat :=
  match parseIntJS (limitQ.getD (natToStr PER_PAGE)) with
  | none => PER_PAGE
  | some v => if v < 1 then PER_PAGE else min v.toNat MAX_LIMIT

/-- The response-relevant outcome of the `/episodes` handler. -/
structure EpisodesRouteResult where
  cursor : Nat
  limit : Nat
  nextCursor : Option Nat
  hasMore : Bool
  episodes : List Episode
  cacheControl : String

/-- Embedding of the success path of `router.get("/episodes")` (podcast.js
lines 826–875), as a function of the already-parsed feed: clamp the
pagination parameters, slice the page, derive `hasMore`/`nextCursor`, and
choose the cache header (`no-store` on bypass or an empty page). -/
def episodesRouteCore (ext : ExtLib) (parsed : JVal) (cursor limitQ : Option String)
    (refresh : QueryVal) : EpisodesRouteResult :=
  let start := safeCursor cursor
  let limit := safeLimit limitQ
  let bypassCache := isRefreshRequested refresh
  let page := extractEpisodesPage ext parsed start limit
  { cursor := start
    limit := limit
    nextCursor :=
      if start + page.episodes.length < page.total
      then some (start + page.episodes.length) else none
    hasMore := decide (start + page.episodes.length < page.total)
    episodes := page.episodes
    cacheControl :=
      if bypassCache || page.episodes.isEmpty then noStoreHeader
      else cacheHeaderFor EPISODES_CACHE_SECONDS }

/-- The Podcast entity (podcast.js lines 651–689). -/
structure PodcastInfo where
  name : JVal
  author : JVal
  rss : String
  image : JVal
  website : JVal
  description_html : String
  description_text : String

/-- Embedding of `extractPodcastInfo`.  The third `website` disjunct
(`Array.isArray(link) ? link[0] : ""`) is only reached when `link` is
falsy, hence never an array, but is translated faithfully. -/
def extractPodcastInfo (ext : ExtLib) (rssData : JVal) (rssUrl : String) : PodcastInfo :=
  let channel := getChannelInfo rssData
  let link := jget channel "link"
  { name := jor (jget channel "title") (.str "")
    author := channelFallbackAuthor channel
    rss := rssUrl
    image := channelFallbackImage channel
    website := jor link (jor (jget channel "itunes:link")
      (match link with
       | .arr elems => elems.headD .undef
       | _ => .str ""))
    description_html := jsOrStr (toRichHtml ext
      (jor (jget channel "itunes:summary")
        (jor (jget channel "description")
          (jor (jget channel "itunes:subtitle") (.str ""))))) ""
    description_text := jsOrStr (toText ext
      (jor (jget channel "itunes:summary")
        (jor (jget channel "description")
          (jor (jget channel "itunes:subtitle") (.str ""))))) "" }

/-- Embedding of `hasPodcastInfo` (podcast.js lines 691–700). -/
def hasPodcastInfo (p : PodcastInfo) : Bool :=
  truthy p.name || truthy p.author || truthy p.image || truthy p.website ||
    !(p.description_html == "") || !(p.description_text == "")

/-- The cache-header decision of `router.get("/")` (podcast.js lines
813–817). -/
def podcastRouteCacheControl (ext : ExtLib) (parsed : JVal) (rssUrl : String)
    (refresh : QueryVal) : String :=
  if isRefreshRequested refresh || !(hasPodcastInfo (extractPodcastInfo ext parsed rssUrl))
  then noStoreHeader
  else cacheHeaderFor PODCAST_CACHE_SECONDS



lemma resolveQuery_str (s : String) : resolveQuery (.str s) = .str s := rfl

lemma refresh_false_iff (v : QueryVal) :
    isRefreshRequested v = false ↔
      (resolveQuery v = .undef ∨ resolveQuery v = .qnull ∨
        ∃ s, resolveQuery v = .str s ∧
          jsToLower (jsTrim s) ∈ ["", "0", "false", "no"]) := by
  induction v using isRefreshRequested.induct with
  | case1 => simp [isRefreshRequested, resolveQuery]
  | case2 => simp [isRefreshRequested, resolveQuery]
  | case3 => simp [isRefreshRequested, resolveQuery]
  | case4 x t ih => simpa [isRefreshRequested, resolveQuery] using ih
  | case5 s nrm he =>
    have he2 : jsToLower (jsTrim s) = "" := he
    constructor
    · intro _
      exact Or.inr (Or.inr ⟨s, resolveQuery_str s, by simp [he2]⟩)
    · intro _
      simp [isRefreshRequested, he2]
  | case6 s nrm hne =>
    have hne2 : ¬ jsToLower (jsTrim s) = "" := hne
    have hlhs : isRefreshRequested (.str s) =
        !(["0", "false", "no"].contains (jsToLower (jsTrim s))) := by
      simp [isRefreshRequested, hne2]
    rw [hlhs]
    constructor
    · intro h
      have hc : (["0", "false", "no"].contains (jsToLower (jsTrim s))) = true := by
        revert h
        cases ["0", "false", "no"].contains (jsToLower (jsTrim s)) <;> simp
      have hm : jsToLower (jsTrim s) ∈ ["0", "false", "no"] := by
        simpa [List.contains, List.elem_iff] using hc
      refine Or.inr (Or.inr ⟨s, resolveQuery_str s, ?_⟩)
      simp only [List.mem_cons] at hm ⊢
      tauto
    · rintro (h | h | ⟨s', hs', hmem⟩)
      · rw [resolveQuery_str] at h
        exact absurd h (by simp)
      · rw [resolveQuery_str] at h
        exact absurd h (by simp)
      · rw [resolveQuery_str] at hs'
        obtain rfl : s = s' := by injection hs'
        have hm : jsToLower (jsTrim s) ∈ ["0", "false", "no"] := by
          rcases List.mem_cons.mp hmem with h0 | h0
          · exact absurd h0 hne2
          · exact h0
        have hc : (["0", "false", "no"].contains (jsToLower (jsTrim s))) = true := by
          simpa [List.contains, List.elem_iff] using hm
        rw [hc]
        rfl


/-! ## Claims C9 and C10: the route layer -/

/-- C9: the `/episodes` handler derives `hasMore` as
`offset + episodes.length < total` and `nextCursor` as that sum when
`hasMore` holds and null otherwise, where the effective offset is the
caller's cursor clamped to a non-negative integer (defaulting to 0) and
the effective limit is clamped to at least 1 and at most `MAX_LIMIT = 50`,
defaulting to `PER_PAGE = 10`. -/
theorem episodesRoute_pagination (ext : ExtLib) (parsed : JVal)
    (cursor limitQ : Option String) (refresh : QueryVal) :
    (episodesRouteCore ext parsed cursor limitQ refresh).hasMore =
      decide ((episodesRouteCore ext parsed cursor limitQ refresh).cursor +
        (episodesRouteCore ext parsed cursor limitQ refresh).episodes.length <
        (extractEpisodesPage ext parsed (safeCursor cursor) (safeLimit limitQ)).total) ∧
    (episodesRouteCore ext parsed cursor limitQ refresh).nextCursor =
      (if (episodesRouteCore ext parsed cursor limitQ refresh).cursor +
          (episodesRouteCore ext parsed cursor limitQ refresh).episodes.length <
          (extractEpisodesPage ext parsed (safeCursor cursor) (safeLimit limitQ)).total
       then some ((episodesRouteCore ext parsed cursor limitQ refresh).cursor +
         (episodesRouteCore ext parsed cursor limitQ refresh).episodes.length)
       else none) ∧
    1 ≤ (episodesRouteCore ext parsed cursor limitQ refresh).limit ∧
    (episodesRouteCore ext parsed cursor limitQ refresh).limit ≤ MAX_LIMIT ∧
    (cursor = none → (episodesRouteCore ext parsed cursor limitQ refresh).cursor = 0) ∧
    (limitQ = none → (episodesRouteCore ext parsed cursor limitQ refresh).limit = PER_PAGE) := by
  have hlim1 : 1 ≤ safeLimit limitQ := by
    unfold safeLimit
    cases hp : parseIntJS (limitQ.getD (natToStr PER_PAGE)) with
    | none => decide
    | some v =>
      by_cases hv : v < 1
      · simp [hv]
        decide
      · simp only [hv, if_false]
        refine Nat.le_min.mpr ⟨?_, by decide⟩
        omega
  have hlim2 : safeLimit limitQ ≤ MAX_LIMIT := by
    unfold safeLimit
    cases hp : parseIntJS (limitQ.getD (natToStr PER_PAGE)) with
    | none => decide
    | some v =>
      by_cases hv : v < 1
      · simp [hv]
        decide
      · simp only [hv, if_false]
        exact Nat.min_le_right _ _
  refine ⟨rfl, rfl, hlim1, hlim2, ?_, ?_⟩
  · rintro rfl
    show safeCursor none = 0
    decide
  · rintro rfl
    show safeLimit none = PER_PAGE
    decide

/-- Witness for C9: with an absent cursor the effective offset is 0. -/
theorem episodesRoute_pagination_witness :
    (none : Option String) = (none : Option String) ∧
    (episodesRouteCore idExt wFeed none none .undef).cursor = 0 :=
  ⟨rfl, (episodesRoute_pagination idExt wFeed none none .undef).2.2.2.2.1 rfl⟩

/-- C10: the cache-bypass predicate is false exactly when the refresh
value is absent (undefined/null after resolving arrays to their first
element) or its trimmed lower-cased string form is empty or one of "0",
"false", "no"; any other value is a bypass, and a bypass forces the
`no-store` cache header on both the channel and the episodes endpoint. -/
theorem isRefreshRequested_characterization :
    (∀ v : QueryVal, isRefreshRequested v = false ↔
      (resolveQuery v = .undef ∨ resolveQuery v = .qnull ∨
        ∃ s, resolveQuery v = .str s ∧
          jsToLower (jsTrim s) ∈ ["", "0", "false", "no"])) ∧
    (∀ (v : QueryVal) (ext : ExtLib) (parsed : JVal) (cursor limitQ : Option String)
        (url : String),
      isRefreshRequested v = true →
        (episodesRouteCore ext parsed cursor limitQ v).cacheControl = noStoreHeader ∧
        podcastRouteCacheControl ext parsed url v = noStoreHeader) := by
  refine ⟨refresh_false_iff, ?_⟩
  intro v ext parsed cursor limitQ url h
  constructor
  · simp [episodesRouteCore, h]
  · simp [podcastRouteCacheControl, h]

/-- Witness for C10: the value "1" requests a bypass, and both endpoints
answer with the `no-store` header. -/
theorem isRefreshRequested_characterization_witness :
    isRefreshRequested (.str "1") = true ∧
    (episodesRouteCore idExt wFeed none none (.str "1")).cacheControl = noStoreHeader ∧
    podcastRouteCacheControl idExt wFeed "u" (.str "1") = noStoreHeader := by
  have h := isRefreshRequested_characterization.2 (.str "1") idExt wFeed none none "u"
    (by decide)
  exact ⟨by decide, h.1, h.2⟩


end Podcast
